import Mathlib

/-!
The file compat/fsmonitor/fsm-path-utils-linux.c.

A shallow embedding of the Linux path utilities of the filesystem monitor:
`is_remote_fs`, `find_mount`, `fsmonitor__get_fs_info` and
`fsmonitor__is_fs_remote`.

The operating system is an explicit environment `Env`: the contents of
`/proc/mounts` (or the failure of `setmntent`), the outcome of `statvfs` and
of `statfs` on every path, and the canonical path computed by `real_pathdup`.
The environment does not change during one call.

C strings are lists of characters without the terminator; the type excludes
an embedded NUL.  The `int` lengths `dlen`, `plen`, `flen` are natural
numbers: paths are far shorter than `2^31` bytes, so no conversion wraps.
-/

set_option autoImplicit false

namespace FsmPathUtilsLinux

/-! ## C strings -/

/-- The terminating byte of a C string. -/
def NUL : Char := Char.ofNat 0

/-- A C string, given by the bytes that precede its terminator. -/
abbrev CStr := {l : List Char // NUL ∉ l}

/-- Number of bytes before the terminator. -/
def strlen (s : CStr) : Nat := s.val.length

/-- The byte `s[i]` for `i ≤ strlen s`; at `i = strlen s` it is the terminator. -/
def char_at (s : CStr) (i : Nat) : Char := s.val.getD i NUL

/-- Byte-wise comparison of at most `n` bytes, stopping at a terminator. -/
def strncmp_go : List Char → List Char → Nat → Int
  | _, _, 0 => 0
  | [], [], _ + 1 => 0
  | [], b :: _, _ + 1 => 0 - (b.toNat : Int)
  | a :: _, [], _ + 1 => (a.toNat : Int)
  | a :: as, b :: bs, n + 1 =>
    if a = b then strncmp_go as bs n else (a.toNat : Int) - (b.toNat : Int)

/-- The libc function `strncmp` on two C strings. -/
def strncmp (s1 s2 : CStr) (n : Nat) : Int := strncmp_go s1.val s2.val n

/-! ## The environment -/

/-- Operation not permitted (`errno.h`). -/
def EPERM : Nat := 1
/-- No such process (`errno.h`). -/
def ESRCH : Nat := 3
/-- Permission denied (`errno.h`). -/
def EACCES : Nat := 13
/-- Bad address (`errno.h`). -/
def EFAULT : Nat := 14
/-- No such file or directory (`errno.h`). -/
def ENOENT : Nat := 2

/-- The field of `struct statvfs` that the code reads. -/
structure statvfs_t where
  f_fsid : Nat
deriving DecidableEq, Repr

/-- Outcome of `statvfs(path, &buf)`: the filled buffer, or `errno`. -/
inductive statvfs_ret where
  | ok (buf : statvfs_t)
  | fail (errno : Nat)
deriving DecidableEq, Repr

/-- Outcome of `statfs(path, &fs)`: the value of `fs.f_type`, or `errno`. -/
inductive statfs_ret where
  | ok (f_type : Int)
  | fail (errno : Nat)
deriving DecidableEq, Repr

/-- One record returned by `getmntent`. -/
structure mntent where
  mnt_fsname : CStr
  mnt_dir : CStr
  mnt_type : CStr
deriving DecidableEq

/-- The caller's `struct mntent`, whose three pointers may be NULL. -/
structure mntent_out where
  mnt_fsname : Option CStr
  mnt_dir : Option CStr
  mnt_type : Option CStr
deriving DecidableEq

/-- The caller's `struct fs_info`. -/
structure fs_info where
  is_remote : Int
  typename : Option CStr
deriving DecidableEq

/-- What the operating system answers during one call. -/
structure Env where
  /-- Result of `real_pathdup(path, 1)`, which does not return on error. -/
  real_pathdup : CStr → CStr
  /-- Records of `/proc/mounts` in order, or `none` when `setmntent` fails. -/
  setmntent : Option (List mntent)
  /-- Outcome of `statvfs` on a path. -/
  statvfs : CStr → statvfs_ret
  /-- Outcome of `statfs` on a path. -/
  statfs : CStr → statfs_ret

/-- Modelled from the spec: `error_errno` of usage.c, which is not in this
file; it prints the message and its value is the failure code -1. -/
def error_errno : Int := -1

/-! ## is_remote_fs -/

/-- The system call `statfs` through a pointer; a NULL pointer is EFAULT. -/
def statfs_ptr (env : Env) : Option CStr → statfs_ret
  | none => statfs_ret.fail EFAULT
  | some p => env.statfs p

/-- Lines 9 to 45. -/
def is_remote_fs (env : Env) (path : Option CStr) : Int :=
  match statfs_ptr env path with
  | statfs_ret.fail _ => -1
  | statfs_ret.ok f_type =>
    if f_type = 0x61636673 ∨ f_type = 0x5346414F ∨ f_type = 0x00C36400 ∨
        f_type = 0xFF534D42 ∨ f_type = 0x73757245 ∨ f_type = 0x19830326 ∨
        f_type = 0x1161970 ∨ f_type = 0x47504653 ∨ f_type = 0x013111A8 ∨
        f_type = 0x6B414653 ∨ f_type = 0x0BD00BD0 ∨ f_type = 0x564C ∨
        f_type = 0x6969 ∨ f_type = 0x6E667364 ∨ f_type = 0x7461636f ∨
        f_type = 0xAAD7AAEA ∨ f_type = 0x517B ∨ f_type = 0xBEEFDEAD ∨
        f_type = 0xFE534D42 ∨ f_type = 0xBACBACBC ∨ f_type = 0xA501FCF5 then
      1
    else
      0

/-! ## find_mount -/

/-- The locals of `find_mount` that the loop updates. -/
structure find_state where
  found : Bool
  flen : Nat
  entry : mntent_out
deriving DecidableEq

/-- How one iteration of the loop ends. -/
inductive step_ret where
  /-- The iteration ends and the loop goes on with this state. -/
  | next (st : find_state)
  /-- The function returns -1 from inside the loop. -/
  | ret (st : find_state)
deriving DecidableEq

/-- The condition of line 96 to 98. -/
def longer_on_boundary (ment : mntent) (rp : CStr) (dlen flen : Nat) : Prop :=
  dlen > flen ∧
    ((dlen = 1 ∧ char_at ment.mnt_dir 0 = '/') ∨
      (char_at rp dlen = NUL ∨ char_at rp dlen = '/'))

instance (ment : mntent) (rp : CStr) (dlen flen : Nat) :
    Decidable (longer_on_boundary ment rp dlen flen) := by
  unfold longer_on_boundary; infer_instance

/-- The body of the loop, lines 73 to 115, on the record `ment`. -/
def find_mount_body (env : Env) (fs : statvfs_t) (rp : CStr) (plen : Nat)
    (st : find_state) (ment : mntent) : step_ret :=
  match env.statvfs ment.mnt_dir with
  | statvfs_ret.fail errno =>
    if errno = EPERM ∨ errno = ESRCH ∨ errno = EACCES then
      step_ret.next st
    else
      step_ret.ret st
  | statvfs_ret.ok mntfs =>
    if fs.f_fsid = mntfs.f_fsid ∧
        strncmp ment.mnt_dir rp (strlen ment.mnt_dir) = 0 then
      let dlen := strlen ment.mnt_dir
      if dlen > plen then
        step_ret.next st
      else if longer_on_boundary ment rp dlen st.flen then
        step_ret.next
          { found := true
            flen := dlen
            entry :=
              { mnt_fsname := some ment.mnt_fsname
                mnt_dir := some ment.mnt_dir
                mnt_type := some ment.mnt_type } }
      else
        step_ret.next st
    else
      step_ret.next st

/-- The loop of line 72 over the records that `getmntent` still returns. -/
def find_mount_loop (env : Env) (fs : statvfs_t) (rp : CStr) (plen : Nat) :
    List mntent → find_state → step_ret
  | [], st => step_ret.next st
  | ment :: rest, st =>
    match find_mount_body env fs rp plen st ment with
    | step_ret.ret st1 => step_ret.ret st1
    | step_ret.next st1 => find_mount_loop env fs rp plen rest st1

/-- The state before the loop: nothing found, the three pointers NULL. -/
def find_init : find_state :=
  { found := false
    flen := 0
    entry := { mnt_fsname := none, mnt_dir := none, mnt_type := none } }

/-- Lines 47 to 124: the return value and the caller's entry. -/
def find_mount (env : Env) (path : CStr) (fs : statvfs_t) : Int × mntent_out :=
  let rp := env.real_pathdup path
  match env.setmntent with
  | none => (-1, find_init.entry)
  | some rows =>
    let plen := strlen rp
    match find_mount_loop env fs rp plen rows find_init with
    | step_ret.ret st => (-1, st.entry)
    | step_ret.next st =>
      if st.found = false then (-1, st.entry) else (0, st.entry)

/-! ## fsmonitor__get_fs_info and fsmonitor__is_fs_remote -/

/-- Lines 126 to 162: the return value and the caller's `fs_info`. -/
def fsmonitor__get_fs_info (env : Env) (path : CStr) : Int × fs_info :=
  let info0 : fs_info := { is_remote := -1, typename := none }
  match env.statvfs path with
  | statvfs_ret.fail _ => (error_errno, info0)
  | statvfs_ret.ok fs =>
    let r := find_mount env path fs
    if r.1 < 0 then
      (-1, info0)
    else
      let info1 : fs_info :=
        { is_remote := is_remote_fs env r.2.mnt_dir
          typename := r.2.mnt_fsname }
      if info1.is_remote < 0 then (-1, info1) else (0, info1)

/-- Lines 164 to 176. -/
def fsmonitor__is_fs_remote (env : Env) (path : CStr) : Int :=
  let r := fsmonitor__get_fs_info env path
  if r.1 ≠ 0 then -1 else r.2.is_remote


/-! ## Vocabulary of the specification -/

/-- The caller's entry after lines 111 to 113 copied the record `r`. -/
def copy_of (r : mntent) : mntent_out :=
  { mnt_fsname := some r.mnt_fsname
    mnt_dir := some r.mnt_dir
    mnt_type := some r.mnt_type }

/-- The record is stat-able and lies on the filesystem identity of `fs`. -/
def stat_same (env : Env) (fs : statvfs_t) (r : mntent) : Prop :=
  ∃ m, env.statvfs r.mnt_dir = statvfs_ret.ok m ∧ m.f_fsid = fs.f_fsid

/-- The record's `statvfs` fails with EPERM, ESRCH or EACCES. -/
def skipped (env : Env) (r : mntent) : Prop :=
  ∃ e, env.statvfs r.mnt_dir = statvfs_ret.fail e ∧
    (e = EPERM ∨ e = ESRCH ∨ e = EACCES)

/-- The record's `statvfs` fails with any other errno. -/
def fatal (env : Env) (r : mntent) : Prop :=
  ∃ e, env.statvfs r.mnt_dir = statvfs_ret.fail e ∧
    e ≠ EPERM ∧ e ≠ ESRCH ∧ e ≠ EACCES

/-- Executable test for `skipped`. -/
def is_skipped (env : Env) (r : mntent) : Bool :=
  match env.statvfs r.mnt_dir with
  | statvfs_ret.fail e => decide (e = EPERM ∨ e = ESRCH ∨ e = EACCES)
  | statvfs_ret.ok _ => false

/-- The environment whose mount table lost every skipped record. -/
def without_skipped (env : Env) : Env :=
  { env with
    setmntent := env.setmntent.map (List.filter (fun r => !is_skipped env r)) }

/-- Filter (d): the directory `d` ends on a path-segment boundary of `rp`:
it is "/", or `rp` has no character after it, or that character is '/'. -/
def on_boundary (d rp : CStr) : Prop :=
  d.val = ['/'] ∨ rp.val[d.val.length]? = none ∨
    rp.val[d.val.length]? = some '/'

/-- The directory `d` is a path-segment prefix of `rp`. -/
def seg_prefix_of (d rp : CStr) : Prop :=
  d.val <+: rp.val ∧ on_boundary d rp

/-- The record survives the filters (a) to (d) for the path `rp` and the
identity of `fs`. -/
def survives (env : Env) (fs : statvfs_t) (rp : CStr) (r : mntent) : Prop :=
  stat_same env fs r ∧ r.mnt_dir.val <+: rp.val ∧
    r.mnt_dir.val.length ≤ rp.val.length ∧ on_boundary r.mnt_dir rp

/-- The classification table as the specification lists it, each name with
the magic constant that the code gives it. -/
def RemoteTypeTable : List (String × Int) :=
  [("ACFS", 0x61636673), ("AFS", 0x5346414F), ("CEPH", 0x00C36400),
   ("CIFS", 0xFF534D42), ("CODA", 0x73757245), ("FHGFS", 0x19830326),
   ("GFS", 0x1161970), ("GPFS", 0x47504653), ("IBRIX", 0x013111A8),
   ("KAFS", 0x6B414653), ("LUSTRE", 0x0BD00BD0), ("NCP", 0x564C),
   ("NFS", 0x6969), ("NFSD", 0x6E667364), ("OCFS2", 0x7461636f),
   ("PANFS", 0xAAD7AAEA), ("SMB", 0x517B), ("SMB2", 0xFE534D42),
   ("SNFS", 0xBEEFDEAD), ("VMHGFS", 0xBACBACBC), ("VXFS", 0xA501FCF5)]

/-! ## Sample environments -/

/-- The path "/". -/
def p_root : CStr := ⟨"/".toList, by decide⟩
/-- The path "/data". -/
def p_data : CStr := ⟨"/data".toList, by decide⟩
/-- The path "/data/x". -/
def p_data_x : CStr := ⟨"/data/x".toList, by decide⟩
/-- The path "/foo". -/
def p_foo : CStr := ⟨"/foo".toList, by decide⟩
/-- The path "/foobar". -/
def p_foobar : CStr := ⟨"/foobar".toList, by decide⟩
/-- The path "/mnt/nfs". -/
def p_mnt_nfs : CStr := ⟨"/mnt/nfs".toList, by decide⟩
/-- The path "/mnt/nfs/sub/file". -/
def p_nfs_file : CStr := ⟨"/mnt/nfs/sub/file".toList, by decide⟩
/-- The empty string. -/
def p_empty : CStr := ⟨[], by decide⟩
/-- The device name "/dev/sda1". -/
def s_sda1 : CStr := ⟨"/dev/sda1".toList, by decide⟩
/-- The device name "/dev/sdb1". -/
def s_sdb1 : CStr := ⟨"/dev/sdb1".toList, by decide⟩
/-- The share name "server:/export". -/
def s_share : CStr := ⟨"server:/export".toList, by decide⟩
/-- The type name "ext4". -/
def s_ext4 : CStr := ⟨"ext4".toList, by decide⟩
/-- The type name "nfs". -/
def s_nfs : CStr := ⟨"nfs".toList, by decide⟩

/-- The record of "/" . -/
def row_root : mntent := ⟨s_sda1, p_root, s_ext4⟩
/-- The record of "/data". -/
def row_data : mntent := ⟨s_sdb1, p_data, s_ext4⟩
/-- The record of "/foo". -/
def row_foo : mntent := ⟨s_sdb1, p_foo, s_ext4⟩
/-- The record of the share mounted on "/mnt/nfs". -/
def row_nfs : mntent := ⟨s_share, p_mnt_nfs, s_nfs⟩

/-- An environment in which every path is canonical, every `statvfs` gives
the identity 7 and every `statfs` the type code 0xEF53, with the table
`rows`. -/
def env_local (rows : List mntent) : Env :=
  { real_pathdup := fun p => p
    setmntent := some rows
    statvfs := fun _ => statvfs_ret.ok ⟨7⟩
    statfs := fun _ => statfs_ret.ok 0xEF53 }

/-- An environment like `env_local` in which `statvfs` on the empty path
fails with ENOENT, as it does on Linux. -/
def env_linux (rows : List mntent) : Env :=
  { real_pathdup := fun p => p
    setmntent := some rows
    statvfs := fun p =>
      if p = p_empty then statvfs_ret.fail ENOENT else statvfs_ret.ok ⟨7⟩
    statfs := fun _ => statfs_ret.ok 0xEF53 }

/-- The table "/", "/mnt/nfs": the share has its own identity 9 and `statfs`
reports the NFS magic 0x6969 on its directory. -/
def env_nfs : Env :=
  { real_pathdup := fun p => p
    setmntent := some [row_root, row_nfs]
    statvfs := fun p =>
      if p = p_root then statvfs_ret.ok ⟨7⟩ else statvfs_ret.ok ⟨9⟩
    statfs := fun p =>
      if p = p_mnt_nfs then statfs_ret.ok 0x6969 else statfs_ret.ok 0xEF53 }

/-- The table "/", "/data" where `statvfs` on "/data" fails with EIO (5). -/
def env_fatal : Env :=
  { real_pathdup := fun p => p
    setmntent := some [row_root, row_data]
    statvfs := fun p =>
      if p = p_data then statvfs_ret.fail 5 else statvfs_ret.ok ⟨7⟩
    statfs := fun _ => statfs_ret.ok 0xEF53 }

/-- The table "/" where every `statfs` fails with EIO (5). -/
def env_statfs_fail : Env :=
  { real_pathdup := fun p => p
    setmntent := some [row_root]
    statvfs := fun _ => statvfs_ret.ok ⟨7⟩
    statfs := fun _ => statfs_ret.fail 5 }

/-- An environment in which `setmntent` fails. -/
def env_no_table : Env :=
  { real_pathdup := fun p => p
    setmntent := none
    statvfs := fun _ => statvfs_ret.ok ⟨7⟩
    statfs := fun _ => statfs_ret.ok 0xEF53 }

/-- The environment `env_nfs` in which `statfs` reports the type code 0xEF53
on every path; the mount table and `statvfs` are unchanged. -/
def env_nfs_as_local : Env :=
  { env_nfs with statfs := fun _ => statfs_ret.ok 0xEF53 }

/-- The record of the share on "/mnt/nfs" with the type name "ext4". -/
def row_nfs_ext4 : mntent := ⟨s_share, p_mnt_nfs, s_ext4⟩

/-- The environment `env_nfs` whose table records the type "ext4" for the
share; `statfs` still reports the NFS magic on "/mnt/nfs". -/
def env_nfs_retyped : Env :=
  { env_nfs with setmntent := some [row_root, row_nfs_ext4] }

/-- An environment in which `statvfs` fails with ENOENT (2) on every path,
with the table `tbl`. -/
def env_no_stat (tbl : Option (List mntent)) : Env :=
  { real_pathdup := fun p => p
    setmntent := tbl
    statvfs := fun _ => statvfs_ret.fail 2
    statfs := fun _ => statfs_ret.ok 0xEF53 }

/-! ## The same functions with the process state made explicit -/

/-- The state of the process that outlives a call: the variable `errno` and
the static area into which `getmntent` writes the record it returns. -/
structure World where
  errno : Nat
  mnt_area : mntent

/-- Lines 9 to 45 on a world: a failing `statfs` sets `errno`. -/
def is_remote_fs_w (env : Env) (path : Option CStr) (w : World) : Int × World :=
  match statfs_ptr env path with
  | statfs_ret.fail e => (-1, { w with errno := e })
  | statfs_ret.ok f_type =>
    if f_type = 0x61636673 ∨ f_type = 0x5346414F ∨ f_type = 0x00C36400 ∨
        f_type = 0xFF534D42 ∨ f_type = 0x73757245 ∨ f_type = 0x19830326 ∨
        f_type = 0x1161970 ∨ f_type = 0x47504653 ∨ f_type = 0x013111A8 ∨
        f_type = 0x6B414653 ∨ f_type = 0x0BD00BD0 ∨ f_type = 0x564C ∨
        f_type = 0x6969 ∨ f_type = 0x6E667364 ∨ f_type = 0x7461636f ∨
        f_type = 0xAAD7AAEA ∨ f_type = 0x517B ∨ f_type = 0xBEEFDEAD ∨
        f_type = 0xFE534D42 ∨ f_type = 0xBACBACBC ∨ f_type = 0xA501FCF5 then
      (1, w)
    else
      (0, w)

/-- Lines 73 to 115 on a world: `ment` points to the static area, a failing
`statvfs` sets `errno`, and line 74 reads `errno` back. -/
def find_mount_body_w (env : Env) (fs : statvfs_t) (rp : CStr) (plen : Nat)
    (w : World) (st : find_state) : step_ret × World :=
  let ment := w.mnt_area
  match env.statvfs ment.mnt_dir with
  | statvfs_ret.fail e =>
    let w1 : World := { w with errno := e }
    if w1.errno = EPERM ∨ w1.errno = ESRCH ∨ w1.errno = EACCES then
      (step_ret.next st, w1)
    else
      (step_ret.ret st, w1)
  | statvfs_ret.ok mntfs =>
    if fs.f_fsid = mntfs.f_fsid ∧
        strncmp ment.mnt_dir rp (strlen ment.mnt_dir) = 0 then
      let dlen := strlen ment.mnt_dir
      if dlen > plen then
        (step_ret.next st, w)
      else if longer_on_boundary ment rp dlen st.flen then
        (step_ret.next
          { found := true
            flen := dlen
            entry :=
              { mnt_fsname := some ment.mnt_fsname
                mnt_dir := some ment.mnt_dir
                mnt_type := some ment.mnt_type } }, w)
      else
        (step_ret.next st, w)
    else
      (step_ret.next st, w)

/-- The loop of line 72 on a world: each `getmntent` that returns a record
overwrites the static area with it. -/
def find_mount_loop_w (env : Env) (fs : statvfs_t) (rp : CStr) (plen : Nat) :
    List mntent → World → find_state → step_ret × World
  | [], w, st => (step_ret.next st, w)
  | row :: rest, w, st =>
    match find_mount_body_w env fs rp plen { w with mnt_area := row } st with
    | (step_ret.ret st1, w1) => (step_ret.ret st1, w1)
    | (step_ret.next st1, w1) => find_mount_loop_w env fs rp plen rest w1 st1

/-- Lines 47 to 124 on a world. `entry_in` is what the caller's `entry` held
on entry; lines 58 to 60 overwrite its three pointers. -/
def find_mount_w (env : Env) (path : CStr) (fs : statvfs_t) (w : World)
    (entry_in : mntent_out) : Int × mntent_out × World :=
  let rp := env.real_pathdup path
  let entry0 : mntent_out :=
    { entry_in with mnt_fsname := none, mnt_dir := none, mnt_type := none }
  match env.setmntent with
  | none => (-1, entry0, w)
  | some rows =>
    let plen := strlen rp
    match find_mount_loop_w env fs rp plen rows w
        { found := false, flen := 0, entry := entry0 } with
    | (step_ret.ret st, w1) => (-1, st.entry, w1)
    | (step_ret.next st, w1) =>
      if st.found = false then (-1, st.entry, w1) else (0, st.entry, w1)

/-- Lines 126 to 162 on a world. `info_in` is what the caller's `fs_info`
held on entry and `entry_in` what the local `entry` held before line 137;
the result is the return value, the caller's `fs_info` and the world left
behind. -/
def fsmonitor__get_fs_info_w (env : Env) (path : CStr) (w : World)
    (info_in : fs_info) (entry_in : mntent_out) : Int × fs_info × World :=
  let info0 : fs_info := { info_in with is_remote := -1, typename := none }
  match env.statvfs path with
  | statvfs_ret.fail e => (error_errno, info0, { w with errno := e })
  | statvfs_ret.ok fs =>
    let r := find_mount_w env path fs w entry_in
    if r.1 < 0 then
      (-1, info0, r.2.2)
    else
      let c := is_remote_fs_w env r.2.1.mnt_dir r.2.2
      let info1 : fs_info :=
        { info0 with is_remote := c.1, typename := r.2.1.mnt_fsname }
      if info1.is_remote < 0 then (-1, info1, c.2) else (0, info1, c.2)

/-- A second record of "/", from another device. -/
def row_root_b : mntent := ⟨s_sdb1, p_root, s_ext4⟩

/-! ## find_mount without the length guard -/

/-- The body of the loop with the branch of lines 91 and 92,
`if (dlen > plen) continue;`, removed. -/
def find_mount_body_unguarded (env : Env) (fs : statvfs_t) (rp : CStr)
    (st : find_state) (ment : mntent) : step_ret :=
  match env.statvfs ment.mnt_dir with
  | statvfs_ret.fail errno =>
    if errno = EPERM ∨ errno = ESRCH ∨ errno = EACCES then
      step_ret.next st
    else
      step_ret.ret st
  | statvfs_ret.ok mntfs =>
    if fs.f_fsid = mntfs.f_fsid ∧
        strncmp ment.mnt_dir rp (strlen ment.mnt_dir) = 0 then
      let dlen := strlen ment.mnt_dir
      if longer_on_boundary ment rp dlen st.flen then
        step_ret.next
          { found := true
            flen := dlen
            entry :=
              { mnt_fsname := some ment.mnt_fsname
                mnt_dir := some ment.mnt_dir
                mnt_type := some ment.mnt_type } }
      else
        step_ret.next st
    else
      step_ret.next st

/-- The loop over the body without the length guard. -/
def find_mount_loop_unguarded (env : Env) (fs : statvfs_t) (rp : CStr) :
    List mntent → find_state → step_ret
  | [], st => step_ret.next st
  | ment :: rest, st =>
    match find_mount_body_unguarded env fs rp st ment with
    | step_ret.ret st1 => step_ret.ret st1
    | step_ret.next st1 => find_mount_loop_unguarded env fs rp rest st1

/-- The function `find_mount` without the length guard. -/
def find_mount_unguarded (env : Env) (path : CStr) (fs : statvfs_t) :
    Int × mntent_out :=
  let rp := env.real_pathdup path
  match env.setmntent with
  | none => (-1, find_init.entry)
  | some rows =>
    match find_mount_loop_unguarded env fs rp rows find_init with
    | step_ret.ret st => (-1, st.entry)
    | step_ret.next st =>
      if st.found = false then (-1, st.entry) else (0, st.entry)

/-! ## Strings -/

theorem char_toNat_eq_zero {c : Char} (h : c.toNat = 0) : c = NUL := by
  apply Char.ext
  apply UInt32.ext
  simpa [Char.toNat, NUL] using h

theorem char_toNat_inj {a b : Char} (h : (a.toNat : Int) - (b.toNat : Int) = 0) : a = b := by
  have h1 : a.toNat = b.toNat := by omega
  apply Char.ext
  apply UInt32.ext
  simpa [Char.toNat] using h1

theorem strncmp_go_zero_iff (a : List Char) (ha : NUL ∉ a) (b : List Char) :
    strncmp_go a b a.length = 0 ↔ a <+: b := by
  induction a generalizing b with
  | nil => simp [strncmp_go]
  | cons x xs ih =>
    have hx : x ≠ NUL := fun h => ha (by simp [h])
    have hxs : NUL ∉ xs := fun h => ha (by simp [h])
    cases b with
    | nil =>
      simp only [List.length_cons, strncmp_go]
      constructor
      · intro h
        exact absurd (char_toNat_eq_zero (by exact_mod_cast h)) hx
      · intro h
        simp at h
    | cons y ys =>
      simp only [List.length_cons, strncmp_go, List.cons_prefix_cons]
      by_cases hxy : x = y
      · simp [hxy, ih hxs ys]
      · simp only [hxy, if_false, false_and, iff_false]
        exact fun h => hxy (char_toNat_inj h)

theorem strncmp_zero_iff (d rp : CStr) :
    strncmp d rp (strlen d) = 0 ↔ d.val <+: rp.val :=
  strncmp_go_zero_iff d.val d.property rp.val

theorem char_at_eq_NUL_iff (rp : CStr) (i : Nat) :
    char_at rp i = NUL ↔ rp.val[i]? = none := by
  unfold char_at
  rw [List.getD_eq_getElem?_getD]
  cases h : rp.val[i]? with
  | none => simp
  | some c =>
    have hc : c ∈ rp.val := List.getElem?_mem h
    simp only [Option.getD_some, reduceCtorEq, iff_false]
    intro hc0
    exact rp.property (hc0 ▸ hc)

theorem char_at_eq_slash_iff (rp : CStr) (i : Nat) :
    char_at rp i = '/' ↔ rp.val[i]? = some '/' := by
  unfold char_at
  rw [List.getD_eq_getElem?_getD]
  cases h : rp.val[i]? with
  | none => simp; decide
  | some c => simp

theorem len_one_slash_iff (d : CStr) :
    (strlen d = 1 ∧ char_at d 0 = '/') ↔ d.val = ['/'] := by
  unfold strlen char_at
  rcases d with ⟨l, hl⟩
  cases l with
  | nil => simp
  | cons a t =>
    cases t with
    | nil => simp
    | cons b t2 => simp


/-! ## One iteration of the loop -/

theorem stat_cases (env : Env) (r : mntent) :
    fatal env r ∨ skipped env r ∨ ∃ m, env.statvfs r.mnt_dir = statvfs_ret.ok m := by
  cases h : env.statvfs r.mnt_dir with
  | ok m => exact Or.inr (Or.inr ⟨m, rfl⟩)
  | fail e =>
    by_cases hs : e = EPERM ∨ e = ESRCH ∨ e = EACCES
    · exact Or.inr (Or.inl ⟨e, h, hs⟩)
    · refine Or.inl ⟨e, h, ?_⟩
      simp only [not_or] at hs
      exact hs

theorem body_fatal (env : Env) (fs : statvfs_t) (rp : CStr) (plen : Nat)
    (st : find_state) (r : mntent) (h : fatal env r) :
    find_mount_body env fs rp plen st r = step_ret.ret st := by
  obtain ⟨e, he, h1, h2, h3⟩ := h
  simp [find_mount_body, he, h1, h2, h3]

theorem body_skipped (env : Env) (fs : statvfs_t) (rp : CStr) (plen : Nat)
    (st : find_state) (r : mntent) (h : skipped env r) :
    find_mount_body env fs rp plen st r = step_ret.next st := by
  obtain ⟨e, he, h1⟩ := h
  simp [find_mount_body, he, h1]

theorem fatal_not_survives (env : Env) (fs : statvfs_t) (rp : CStr)
    (r : mntent) (h : fatal env r) : ¬ survives env fs rp r := by
  rintro ⟨⟨m, hm, _⟩, _⟩
  obtain ⟨e, he, _⟩ := h
  rw [hm] at he
  cases he

theorem skipped_not_survives (env : Env) (fs : statvfs_t) (rp : CStr)
    (r : mntent) (h : skipped env r) : ¬ survives env fs rp r := by
  rintro ⟨⟨m, hm, _⟩, _⟩
  obtain ⟨e, he, _⟩ := h
  rw [hm] at he
  cases he

/-- The tests of lines 88 to 98 together say: the record survives the
filters and is strictly longer than the best so far. -/
theorem tests_iff (env : Env) (fs : statvfs_t) (rp : CStr) (flen : Nat)
    (r : mntent) (m : statvfs_t) (hm : env.statvfs r.mnt_dir = statvfs_ret.ok m) :
    ((fs.f_fsid = m.f_fsid ∧ strncmp r.mnt_dir rp (strlen r.mnt_dir) = 0) ∧
      ¬ (strlen r.mnt_dir > strlen rp) ∧
      longer_on_boundary r rp (strlen r.mnt_dir) flen) ↔
    (survives env fs rp r ∧ flen < strlen r.mnt_dir) := by
  unfold longer_on_boundary survives on_boundary stat_same
  rw [strncmp_zero_iff, len_one_slash_iff, char_at_eq_NUL_iff, char_at_eq_slash_iff]
  simp only [hm, statvfs_ret.ok.injEq, exists_eq_left', strlen]
  constructor
  · rintro ⟨⟨h1, h2⟩, h3, h4, h5⟩
    exact ⟨⟨h1.symm, h2, by omega, h5⟩, h4⟩
  · rintro ⟨⟨h1, h2, h3, h5⟩, h4⟩
    exact ⟨⟨h1.symm, h2⟩, by omega, h4, h5⟩

theorem body_take (env : Env) (fs : statvfs_t) (rp : CStr)
    (st : find_state) (r : mntent) (h : survives env fs rp r)
    (hl : st.flen < strlen r.mnt_dir) :
    find_mount_body env fs rp (strlen rp) st r =
      step_ret.next ⟨true, strlen r.mnt_dir, copy_of r⟩ := by
  obtain ⟨m, hm, hid⟩ := h.1
  have ht := (tests_iff env fs rp st.flen r m hm).2 ⟨h, hl⟩
  obtain ⟨h1, h2, h3⟩ := ht
  simp only [find_mount_body, hm]
  rw [if_pos h1, if_neg h2, if_pos h3]
  rfl

theorem body_keep (env : Env) (fs : statvfs_t) (rp : CStr)
    (st : find_state) (r : mntent) (hf : ¬ fatal env r)
    (h : ¬ (survives env fs rp r ∧ st.flen < strlen r.mnt_dir)) :
    find_mount_body env fs rp (strlen rp) st r = step_ret.next st := by
  rcases stat_cases env r with h1 | h1 | ⟨m, hm⟩
  · exact absurd h1 hf
  · exact body_skipped env fs rp _ st r h1
  · have ht := (tests_iff env fs rp st.flen r m hm).not.2 h
    simp only [find_mount_body, hm]
    by_cases c1 : fs.f_fsid = m.f_fsid ∧ strncmp r.mnt_dir rp (strlen r.mnt_dir) = 0
    · rw [if_pos c1]
      by_cases c2 : strlen r.mnt_dir > strlen rp
      · simp only [c2, if_true]
      · have c3 : ¬ longer_on_boundary r rp (strlen r.mnt_dir) st.flen :=
          fun c3 => ht ⟨c1, c2, c3⟩
        simp only [c2, if_false, c3]
    · rw [if_neg c1]

/-! ## The loop -/

theorem loop_no_fatal (env : Env) (fs : statvfs_t) (rp : CStr) (rows : List mntent)
    (hnf : ∀ r ∈ rows, ¬ fatal env r) (st : find_state) :
    ∃ st1, find_mount_loop env fs rp (strlen rp) rows st = step_ret.next st1 := by
  induction rows generalizing st with
  | nil => exact ⟨st, rfl⟩
  | cons r rest ih =>
    have hr : ¬ fatal env r := hnf r (List.mem_cons_self _ _)
    have hrest : ∀ x ∈ rest, ¬ fatal env x := fun x hx => hnf x (List.mem_cons_of_mem _ hx)
    by_cases c : survives env fs rp r ∧ st.flen < strlen r.mnt_dir
    · simp only [find_mount_loop, body_take env fs rp st r c.1 c.2]
      exact ih hrest _
    · simp only [find_mount_loop, body_keep env fs rp st r hr c]
      exact ih hrest _

theorem loop_fatal (env : Env) (fs : statvfs_t) (rp : CStr) (rows : List mntent)
    (hf : ∃ r ∈ rows, fatal env r) (st : find_state) :
    ∃ st1, find_mount_loop env fs rp (strlen rp) rows st = step_ret.ret st1 := by
  induction rows generalizing st with
  | nil => obtain ⟨r, hr, _⟩ := hf; cases hr
  | cons r rest ih =>
    by_cases hr : fatal env r
    · exact ⟨st, by simp only [find_mount_loop, body_fatal env fs rp _ st r hr]⟩
    · have hrest : ∃ x ∈ rest, fatal env x := by
        obtain ⟨x, hx, hxf⟩ := hf
        rcases List.mem_cons.1 hx with rfl | hx1
        · exact absurd hxf hr
        · exact ⟨x, hx1, hxf⟩
      by_cases c : survives env fs rp r ∧ st.flen < strlen r.mnt_dir
      · simp only [find_mount_loop, body_take env fs rp st r c.1 c.2]
        exact ih hrest _
      · simp only [find_mount_loop, body_keep env fs rp st r hr c]
        exact ih hrest _

/-- What the loop has established when it runs to the end of the table. -/
theorem loop_next_inv (env : Env) (fs : statvfs_t) (rp : CStr) (rows : List mntent)
    (st st1 : find_state)
    (h : find_mount_loop env fs rp (strlen rp) rows st = step_ret.next st1) :
    st.flen ≤ st1.flen ∧
    (∀ r ∈ rows, ¬ fatal env r) ∧
    (∀ r ∈ rows, survives env fs rp r → strlen r.mnt_dir ≤ st1.flen) ∧
    (st1 = st ∨ ∃ r ∈ rows, survives env fs rp r ∧ st.flen < strlen r.mnt_dir ∧
      st1 = ⟨true, strlen r.mnt_dir, copy_of r⟩) := by
  induction rows generalizing st with
  | nil =>
    simp only [find_mount_loop, step_ret.next.injEq] at h
    subst h
    simp
  | cons r rest ih =>
    by_cases hr : fatal env r
    · simp [find_mount_loop, body_fatal env fs rp _ st r hr] at h
    by_cases c : survives env fs rp r ∧ st.flen < strlen r.mnt_dir
    · simp only [find_mount_loop, body_take env fs rp st r c.1 c.2] at h
      obtain ⟨h1, h2, h3, h4⟩ := ih _ h
      simp only at h1
      refine ⟨by omega, ?_, ?_, ?_⟩
      · intro x hx
        rcases List.mem_cons.1 hx with rfl | hx1
        · exact hr
        · exact h2 x hx1
      · intro x hx hs
        rcases List.mem_cons.1 hx with rfl | hx1
        · exact h1
        · exact h3 x hx1 hs
      · right
        rcases h4 with h4 | ⟨x, hx, hs, hl, hst⟩
        · exact ⟨r, List.mem_cons_self _ _, c.1, c.2, h4⟩
        · simp only at hl
          exact ⟨x, List.mem_cons_of_mem _ hx, hs, by omega, hst⟩
    · simp only [find_mount_loop, body_keep env fs rp st r hr c] at h
      obtain ⟨h1, h2, h3, h4⟩ := ih _ h
      refine ⟨h1, ?_, ?_, ?_⟩
      · intro x hx
        rcases List.mem_cons.1 hx with rfl | hx1
        · exact hr
        · exact h2 x hx1
      · intro x hx hs
        rcases List.mem_cons.1 hx with rfl | hx1
        · have : ¬ st.flen < strlen x.mnt_dir := fun hl => c ⟨hs, hl⟩
          omega
        · exact h3 x hx1 hs
      · rcases h4 with h4 | ⟨x, hx, hs, hl, hst⟩
        · exact Or.inl h4
        · exact Or.inr ⟨x, List.mem_cons_of_mem _ hx, hs, hl, hst⟩

/-! ## find_mount as a whole -/

theorem not_fatal_of_stat_same (env : Env) (fs : statvfs_t) (r : mntent)
    (h : stat_same env fs r) : ¬ fatal env r := by
  obtain ⟨m, hm, _⟩ := h
  rintro ⟨e, he, _⟩
  rw [hm] at he
  cases he

/-- A successful `find_mount` ran over the whole table, met no fatal record,
and holds a copy of a surviving record of maximal length. -/
theorem find_mount_success (env : Env) (path : CStr) (fs : statvfs_t)
    (e : mntent_out) (h : find_mount env path fs = (0, e)) :
    ∃ rows, env.setmntent = some rows ∧ (∀ r ∈ rows, ¬ fatal env r) ∧
      ∃ r ∈ rows, survives env fs (env.real_pathdup path) r ∧
        0 < strlen r.mnt_dir ∧ e = copy_of r ∧
        ∀ x ∈ rows, survives env fs (env.real_pathdup path) x →
          strlen x.mnt_dir ≤ strlen r.mnt_dir := by
  unfold find_mount at h
  cases hs : env.setmntent with
  | none => simp [hs] at h
  | some rows =>
    simp only [hs] at h
    cases hl : find_mount_loop env fs (env.real_pathdup path)
        (strlen (env.real_pathdup path)) rows find_init with
    | ret st => simp [hl] at h
    | next st =>
      simp only [hl] at h
      obtain ⟨_, h2, h3, h4⟩ := loop_next_inv env fs _ rows _ _ hl
      refine ⟨rows, rfl, h2, ?_⟩
      rcases h4 with h4 | ⟨r, hr, hsv, hlen, hst⟩
      · subst h4
        simp [find_init] at h
      · subst hst
        simp only [Bool.true_eq_false, if_false, Prod.mk.injEq, true_and] at h
        simp only at h3
        simp only [find_init] at hlen
        exact ⟨r, hr, hsv, hlen, h.symm, h3⟩

/-- The outcome of `find_mount` when the table opens and no record is fatal. -/
theorem find_mount_no_fatal (env : Env) (path : CStr) (fs : statvfs_t)
    (rows : List mntent) (hs : env.setmntent = some rows)
    (hnf : ∀ r ∈ rows, ¬ fatal env r) :
    (find_mount env path fs = (-1, find_init.entry) ∧
      ∀ r ∈ rows, survives env fs (env.real_pathdup path) r → strlen r.mnt_dir = 0) ∨
    (∃ r ∈ rows, survives env fs (env.real_pathdup path) r ∧ 0 < strlen r.mnt_dir ∧
      find_mount env path fs = (0, copy_of r)) := by
  obtain ⟨st, hl⟩ := loop_no_fatal env fs (env.real_pathdup path) rows hnf find_init
  obtain ⟨_, _, h3, h4⟩ := loop_next_inv env fs _ rows _ _ hl
  rcases h4 with h4 | ⟨r, hr, hsv, hlen, hst⟩
  · subst h4
    left
    refine ⟨by simp only [find_mount, hs, hl]; rfl, ?_⟩
    intro r hr hsv
    have := h3 r hr hsv
    simp only [find_init] at this
    omega
  · subst hst
    right
    exact ⟨r, hr, hsv, hlen, by simp [find_mount, hs, hl]⟩

theorem find_mount_rc (env : Env) (path : CStr) (fs : statvfs_t) :
    (find_mount env path fs).1 = 0 ∨ (find_mount env path fs).1 = -1 := by
  unfold find_mount
  cases env.setmntent with
  | none => simp
  | some rows =>
    simp only
    cases find_mount_loop env fs (env.real_pathdup path)
        (strlen (env.real_pathdup path)) rows find_init with
    | ret st => simp
    | next st => by_cases c : st.found = false <;> simp [c]

theorem survives_seg (env : Env) (fs : statvfs_t) (rp : CStr) (r : mntent) :
    survives env fs rp r ↔ stat_same env fs r ∧ seg_prefix_of r.mnt_dir rp := by
  unfold survives seg_prefix_of
  constructor
  · rintro ⟨h1, h2, _, h4⟩
    exact ⟨h1, h2, h4⟩
  · rintro ⟨h1, h2, h4⟩
    exact ⟨h1, h2, h2.length_le, h4⟩

/-- C1. Longest-prefix selection: a successful `find_mount` returns a copy of
one record of the table that is stat-able on the path's identity, and no
stat-able record on that identity whose directory is a path-segment prefix of
the canonical path is longer.  With "/" and "/data" on the path's identity,
in either order, and the canonical path "/data/x", the record of "/data" is
returned. -/
theorem find_mount_longest_match :
    (∀ (env : Env) (path : CStr) (fs : statvfs_t) (rows : List mntent)
        (e : mntent_out),
      env.setmntent = some rows → find_mount env path fs = (0, e) →
      ∃ r ∈ rows, e = copy_of r ∧ stat_same env fs r ∧
        ∀ x ∈ rows, stat_same env fs x →
          seg_prefix_of x.mnt_dir (env.real_pathdup path) →
          strlen x.mnt_dir ≤ strlen r.mnt_dir) ∧
    (∀ (env : Env) (path : CStr) (fs : statvfs_t) (n1 t1 n2 t2 : CStr),
      env.real_pathdup path = p_data_x →
      stat_same env fs ⟨n1, p_root, t1⟩ →
      stat_same env fs ⟨n2, p_data, t2⟩ →
      (env.setmntent = some [⟨n1, p_root, t1⟩, ⟨n2, p_data, t2⟩] ∨
        env.setmntent = some [⟨n2, p_data, t2⟩, ⟨n1, p_root, t1⟩]) →
      find_mount env path fs = (0, copy_of ⟨n2, p_data, t2⟩)) := by
  constructor
  · intro env path fs rows e hs h
    obtain ⟨rows1, hs1, _, r, hr, hsv, _, he, hmax⟩ := find_mount_success env path fs e h
    rw [hs] at hs1
    cases hs1
    refine ⟨r, hr, he, hsv.1, ?_⟩
    intro x hx h1 h2
    exact hmax x hx ((survives_seg env fs _ x).2 ⟨h1, h2⟩)
  · intro env path fs n1 t1 n2 t2 hrp h1 h2 hs
    have s1 : survives env fs p_data_x ⟨n1, p_root, t1⟩ :=
      ⟨h1, show p_root.val <+: p_data_x.val by decide,
        show p_root.val.length ≤ p_data_x.val.length by decide,
        Or.inl (show p_root.val = ['/'] by decide)⟩
    have s2 : survives env fs p_data_x ⟨n2, p_data, t2⟩ :=
      ⟨h2, show p_data.val <+: p_data_x.val by decide,
        show p_data.val.length ≤ p_data_x.val.length by decide,
        Or.inr (Or.inr (show p_data_x.val[p_data.val.length]? = some '/' by decide))⟩
    have l1 : strlen (⟨n1, p_root, t1⟩ : mntent).mnt_dir = 1 :=
      show strlen p_root = 1 by decide
    have l2 : strlen (⟨n2, p_data, t2⟩ : mntent).mnt_dir = 5 :=
      show strlen p_data = 5 by decide
    rcases hs with hs | hs
    · simp only [find_mount, hs, hrp, find_mount_loop]
      rw [body_take env fs p_data_x find_init _ s1 (by rw [l1]; show 0 < 1; decide)]
      simp only
      rw [body_take env fs p_data_x _ _ s2 (by rw [l2]; show 1 < 5; decide)]
      rfl
    · simp only [find_mount, hs, hrp, find_mount_loop]
      rw [body_take env fs p_data_x find_init _ s2 (by rw [l2]; show 0 < 5; decide)]
      simp only
      rw [body_keep env fs p_data_x _ _ (not_fatal_of_stat_same env fs _ h1)
        (by rw [l1, l2]; simp)]
      rfl

/-- Witness of C1: the table "/", "/data" and the path "/data/x". -/
theorem find_mount_longest_match_witness :
    ∃ r ∈ [row_root, row_data], copy_of row_data = copy_of r ∧
      stat_same (env_local [row_root, row_data]) ⟨7⟩ r ∧
      ∀ x ∈ [row_root, row_data],
        stat_same (env_local [row_root, row_data]) ⟨7⟩ x →
        seg_prefix_of x.mnt_dir
          ((env_local [row_root, row_data]).real_pathdup p_data_x) →
        strlen x.mnt_dir ≤ strlen r.mnt_dir :=
  find_mount_longest_match.1 (env_local [row_root, row_data]) p_data_x ⟨7⟩
    [row_root, row_data] (copy_of row_data) rfl (by decide)

theorem boundary_cases (d rp : CStr) (h : seg_prefix_of d rp) :
    d.val = ['/'] ∨ d = rp ∨ d.val ++ ['/'] <+: rp.val := by
  obtain ⟨⟨t, ht⟩, hb⟩ := h
  rcases hb with hb | hb | hb
  · exact Or.inl hb
  · right; left
    apply Subtype.ext
    rw [← ht] at hb
    cases t with
    | nil => simpa using ht
    | cons c t1 => simp at hb
  · right; right
    rw [← ht] at hb
    cases t with
    | nil => simp at hb
    | cons c t1 =>
      simp only [List.getElem?_append_right (le_refl _), Nat.sub_self,
        List.getElem?_cons_zero, Option.some.injEq] at hb
      subst hb
      exact ⟨t1, by rw [← ht]; simp⟩

/-- C2. Segment-boundary invariant: the directory that a successful
`find_mount` returns is exactly "/", or equals the canonical path, or is
followed by '/' in the canonical path; so "/foo" is never returned for
"/foobar". -/
theorem find_mount_segment_boundary (env : Env) (path : CStr) (fs : statvfs_t)
    (e : mntent_out) (h : find_mount env path fs = (0, e)) :
    ∃ d, e.mnt_dir = some d ∧
      (d.val = ['/'] ∨ d = env.real_pathdup path ∨
        d.val ++ ['/'] <+: (env.real_pathdup path).val) ∧
      ((env.real_pathdup path).val = "/foobar".toList → d.val ≠ "/foo".toList) := by
  obtain ⟨rows, _, _, r, _, hsv, _, he, _⟩ := find_mount_success env path fs e h
  have hseg := ((survives_seg env fs _ r).1 hsv).2
  have hb := boundary_cases _ _ hseg
  refine ⟨r.mnt_dir, by rw [he]; rfl, hb, ?_⟩
  intro hrp hd
  rcases hb with hb | hb | hb
  · rw [hd] at hb
    revert hb
    decide
  · rw [← hb, hd] at hrp
    revert hrp
    decide
  · rw [hd, hrp] at hb
    revert hb
    decide

/-- Witness of C2: with "/foo" and "/" in the table, "/foobar" resolves
to "/". -/
theorem find_mount_segment_boundary_witness :
    ∃ d, (copy_of row_root).mnt_dir = some d ∧
      (d.val = ['/'] ∨ d = (env_local [row_foo, row_root]).real_pathdup p_foobar ∨
        d.val ++ ['/'] <+: ((env_local [row_foo, row_root]).real_pathdup p_foobar).val) ∧
      (((env_local [row_foo, row_root]).real_pathdup p_foobar).val = "/foobar".toList →
        d.val ≠ "/foo".toList) :=
  find_mount_segment_boundary (env_local [row_foo, row_root]) p_foobar ⟨7⟩
    (copy_of row_root) (by decide)

/-! ## The classifier and the query -/

theorem is_remote_fs_range (env : Env) (p : Option CStr) :
    is_remote_fs env p = -1 ∨ is_remote_fs env p = 0 ∨ is_remote_fs env p = 1 := by
  unfold is_remote_fs
  cases statfs_ptr env p with
  | fail e => simp
  | ok t =>
    simp only
    split
    · simp
    · simp

/-- With a successful `statfs`, `is_remote_fs` is a lookup in the table. -/
theorem is_remote_fs_lookup (env : Env) (path : CStr) (t : Int)
    (h : env.statfs path = statfs_ret.ok t) :
    is_remote_fs env (some path) =
      if t ∈ RemoteTypeTable.map Prod.snd then 1 else 0 := by
  simp only [is_remote_fs, statfs_ptr, h, RemoteTypeTable, List.map_cons,
    List.map_nil, List.mem_cons, List.mem_singleton, List.not_mem_nil, or_false]
  by_cases c : t = 0x61636673 ∨ t = 0x5346414F ∨ t = 0x00C36400 ∨
      t = 0xFF534D42 ∨ t = 0x73757245 ∨ t = 0x19830326 ∨
      t = 0x1161970 ∨ t = 0x47504653 ∨ t = 0x013111A8 ∨
      t = 0x6B414653 ∨ t = 0x0BD00BD0 ∨ t = 0x564C ∨
      t = 0x6969 ∨ t = 0x6E667364 ∨ t = 0x7461636f ∨
      t = 0xAAD7AAEA ∨ t = 0x517B ∨ t = 0xBEEFDEAD ∨
      t = 0xFE534D42 ∨ t = 0xBACBACBC ∨ t = 0xA501FCF5
  · rw [if_pos c, if_pos (by omega)]
  · rw [if_neg c, if_neg (by omega)]

/-- C3. Classification table: when `statfs` on the path succeeds with type
code `t`, `is_remote_fs` returns 1 exactly when `t` is one of the 21 magic
constants of the table (0x6969, NFS, among them) and 0 for every other `t`
(0xEF53 for one); it is never negative. -/
theorem is_remote_fs_table (env : Env) (path : CStr) (t : Int)
    (h : env.statfs path = statfs_ret.ok t) :
    (is_remote_fs env (some path) = 1 ↔ t ∈ RemoteTypeTable.map Prod.snd) ∧
    (t ∉ RemoteTypeTable.map Prod.snd → is_remote_fs env (some path) = 0) ∧
    0 ≤ is_remote_fs env (some path) ∧
    RemoteTypeTable.length = 21 ∧
    (t = 0x6969 → is_remote_fs env (some path) = 1) ∧
    (t = 0xEF53 → is_remote_fs env (some path) = 0) := by
  rw [is_remote_fs_lookup env path t h]
  refine ⟨?_, ?_, ?_, rfl, ?_, ?_⟩
  · by_cases c : t ∈ RemoteTypeTable.map Prod.snd <;> simp [c]
  · intro c; simp [c]
  · by_cases c : t ∈ RemoteTypeTable.map Prod.snd <;> simp [c]
  · intro ht; subst ht; rw [if_pos (by decide)]
  · intro ht; subst ht; rw [if_neg (by decide)]

/-- Witness of C3: a path whose `statfs` reports the NFS magic. -/
theorem is_remote_fs_table_witness :
    is_remote_fs ⟨fun p => p, none, fun _ => statvfs_ret.ok ⟨7⟩,
      fun _ => statfs_ret.ok 0x6969⟩ (some p_mnt_nfs) = 1 :=
  (is_remote_fs_table ⟨fun p => p, none, fun _ => statvfs_ret.ok ⟨7⟩,
    fun _ => statfs_ret.ok 0x6969⟩ p_mnt_nfs 0x6969 rfl).2.2.2.2.1 rfl

/-- C4. Successful query result: when `fsmonitor__get_fs_info` returns 0,
`is_remote` is the verdict, 0 or 1, of `is_remote_fs` on the directory of the
record that `find_mount` resolved, and `typename` is that record's
`mnt_fsname`.  With "/mnt/nfs" resolved for "/mnt/nfs/sub/file" and the type
code 0x6969 on it, the result is `is_remote = 1` with the record's
`mnt_fsname`. -/
theorem get_fs_info_success :
    (∀ (env : Env) (path : CStr) (info : fs_info),
      fsmonitor__get_fs_info env path = (0, info) →
      ∃ fs rows r, env.statvfs path = statvfs_ret.ok fs ∧
        env.setmntent = some rows ∧ r ∈ rows ∧
        find_mount env path fs = (0, copy_of r) ∧
        info.is_remote = is_remote_fs env (some r.mnt_dir) ∧
        (info.is_remote = 0 ∨ info.is_remote = 1) ∧
        info.typename = some r.mnt_fsname) ∧
    (∀ (env : Env) (path : CStr) (fs : statvfs_t) (r : mntent),
      env.statvfs path = statvfs_ret.ok fs →
      env.real_pathdup path = p_nfs_file →
      r.mnt_dir = p_mnt_nfs →
      find_mount env path fs = (0, copy_of r) →
      env.statfs p_mnt_nfs = statfs_ret.ok 0x6969 →
      fsmonitor__get_fs_info env path = (0, ⟨1, some r.mnt_fsname⟩)) := by
  constructor
  · intro env path info h
    unfold fsmonitor__get_fs_info at h
    cases hp : env.statvfs path with
    | fail e => simp [hp, error_errno] at h
    | ok fs =>
      simp only [hp] at h
      rcases find_mount_rc env path fs with hrc | hrc
      · obtain ⟨rows, hs, _, r, hr, _, _, he, _⟩ :=
          find_mount_success env path fs (find_mount env path fs).2
            (by rw [← hrc])
        have hfm : find_mount env path fs = (0, copy_of r) := by
          rw [← he, ← hrc]
        rw [hfm] at h
        simp only [copy_of, lt_self_iff_false, if_false] at h
        rcases is_remote_fs_range env (some r.mnt_dir) with c | c | c
        · simp [c] at h
        · simp only [c, lt_self_iff_false, if_false, Prod.mk.injEq, true_and] at h
          subst h
          exact ⟨fs, rows, r, rfl, hs, hr, hfm, c.symm, Or.inl rfl, rfl⟩
        · simp only [c, Prod.mk.injEq, true_and] at h
          have h1 : ¬ ((1 : Int) < 0) := by decide
          rw [if_neg h1] at h
          simp only [Prod.mk.injEq, true_and] at h
          subst h
          exact ⟨fs, rows, r, rfl, hs, hr, hfm, c.symm, Or.inr rfl, rfl⟩
      · simp [hrc] at h
  · intro env path fs r hp _ hd hfm hst
    have hc : is_remote_fs env (some p_mnt_nfs) = 1 := by
      rw [is_remote_fs_lookup env p_mnt_nfs 0x6969 hst, if_pos (by decide)]
    simp only [fsmonitor__get_fs_info, hp, hfm, copy_of, hd, hc]
    rw [if_neg (by decide), if_neg (by decide)]

/-- Witness of C4: the share on "/mnt/nfs" and the path "/mnt/nfs/sub/file". -/
theorem get_fs_info_success_witness :
    fsmonitor__get_fs_info env_nfs p_nfs_file = (0, ⟨1, some s_share⟩) ∧
    ∃ fs rows r, env_nfs.statvfs p_nfs_file = statvfs_ret.ok fs ∧
        env_nfs.setmntent = some rows ∧ r ∈ rows ∧
        find_mount env_nfs p_nfs_file fs = (0, copy_of r) ∧
        (⟨1, some s_share⟩ : fs_info).is_remote = is_remote_fs env_nfs (some r.mnt_dir) ∧
        ((⟨1, some s_share⟩ : fs_info).is_remote = 0 ∨
          (⟨1, some s_share⟩ : fs_info).is_remote = 1) ∧
        (⟨1, some s_share⟩ : fs_info).typename = some r.mnt_fsname :=
  ⟨get_fs_info_success.2 env_nfs p_nfs_file ⟨9⟩ row_nfs (by decide) rfl rfl
      (by decide) (by decide),
    get_fs_info_success.1 env_nfs p_nfs_file ⟨1, some s_share⟩ (by decide)⟩

theorem loop_without_skipped (env : Env) (fs : statvfs_t) (rp : CStr) (plen : Nat)
    (rows : List mntent) (st : find_state) :
    find_mount_loop (without_skipped env) fs rp plen
        (rows.filter (fun r => !is_skipped env r)) st =
      find_mount_loop env fs rp plen rows st := by
  induction rows generalizing st with
  | nil => rfl
  | cons r rest ih =>
    have hb : ∀ (s : find_state) (x : mntent),
        find_mount_body (without_skipped env) fs rp plen s x =
          find_mount_body env fs rp plen s x := fun _ _ => rfl
    by_cases hk : is_skipped env r = true
    · have hsk : skipped env r := by
        unfold is_skipped at hk
        cases hst : env.statvfs r.mnt_dir with
        | ok m => simp [hst] at hk
        | fail e =>
          simp only [hst, decide_eq_true_eq] at hk
          exact ⟨e, hst, hk⟩
      simp only [List.filter_cons, hk, Bool.not_true, Bool.false_eq_true, if_false,
        find_mount_loop, body_skipped env fs rp plen st r hsk]
      exact ih st
    · simp only [Bool.not_eq_true] at hk
      simp only [List.filter_cons, hk, Bool.not_false, if_true, find_mount_loop, hb]
      cases find_mount_body env fs rp plen st r with
      | ret s1 => rfl
      | next s1 => exact ih s1

/-- C5. Skip-not-abort: `find_mount` gives the same return code and the same
entry on a mount table and on that table without the records whose `statvfs`
fails with EPERM, ESRCH or EACCES. -/
theorem find_mount_skip_not_abort (env : Env) (path : CStr) (fs : statvfs_t) :
    find_mount (without_skipped env) path fs = find_mount env path fs ∧
    (∀ rows, env.setmntent = some rows →
      (without_skipped env).setmntent =
        some (rows.filter (fun r => !is_skipped env r))) ∧
    (∀ r, is_skipped env r = true ↔ skipped env r) := by
  refine ⟨?_, ?_, ?_⟩
  · unfold find_mount
    cases hs : env.setmntent with
    | none => simp [without_skipped, hs]
    | some rows =>
      have h1 : (without_skipped env).setmntent =
          some (rows.filter (fun r => !is_skipped env r)) := by
        simp [without_skipped, hs]
      have h2 : (without_skipped env).real_pathdup = env.real_pathdup := rfl
      simp only [h1, h2, loop_without_skipped]
  · intro rows hs
    simp [without_skipped, hs]
  · intro r
    unfold is_skipped skipped
    cases hst : env.statvfs r.mnt_dir with
    | ok m => simp
    | fail e => simp

/-- Where `statvfs` fails on the empty path, a surviving record has a
non-empty directory. -/
theorem survives_nonempty (env : Env) (fs : statvfs_t) (rp : CStr) (r : mntent)
    (hempty : env.statvfs p_empty = statvfs_ret.fail ENOENT)
    (h : survives env fs rp r) : 0 < strlen r.mnt_dir := by
  obtain ⟨m, hm, _⟩ := h.1
  rcases Nat.eq_zero_or_pos (strlen r.mnt_dir) with h0 | h0
  · have hd : r.mnt_dir = p_empty := Subtype.ext (List.length_eq_zero.1 h0)
    rw [hd, hempty] at hm
    cases hm
  · exact h0

/-- C6. NotFound exactly when nothing survives: on an openable table without
a fatal record, `find_mount` fails if and only if no record survives the
filters (a) to (d); it then leaves the three pointers NULL; and whenever a
record survives, a surviving record is returned.  The environment is one in
which `statvfs` on the empty path fails with ENOENT, as on Linux, so that a
record with an empty `mnt_dir` is a fatal record. -/
theorem find_mount_notfound_iff (env : Env) (path : CStr) (fs : statvfs_t)
    (rows : List mntent) (hs : env.setmntent = some rows)
    (hnf : ∀ r ∈ rows, ¬ fatal env r)
    (hempty : env.statvfs p_empty = statvfs_ret.fail ENOENT) :
    ((find_mount env path fs).1 = -1 ↔
      ¬ ∃ r ∈ rows, survives env fs (env.real_pathdup path) r) ∧
    (find_mount env path fs = (-1, ⟨none, none, none⟩) ↔
      ¬ ∃ r ∈ rows, survives env fs (env.real_pathdup path) r) ∧
    ((∃ r ∈ rows, survives env fs (env.real_pathdup path) r) →
      ∃ r ∈ rows, survives env fs (env.real_pathdup path) r ∧
        find_mount env path fs = (0, copy_of r)) := by
  rcases find_mount_no_fatal env path fs rows hs hnf with ⟨h1, h2⟩ | ⟨r, hr, hsv, hlen, hfm⟩
  · have hno : ¬ ∃ r ∈ rows, survives env fs (env.real_pathdup path) r := by
      rintro ⟨r, hr, hsv⟩
      have := h2 r hr hsv
      have := survives_nonempty env fs _ r hempty hsv
      omega
    refine ⟨?_, ?_, ?_⟩
    · rw [h1]; simp [hno]
    · rw [h1]
      exact ⟨fun _ => hno, fun _ => rfl⟩
    · intro h; exact absurd h hno
  · have hyes : ∃ r ∈ rows, survives env fs (env.real_pathdup path) r := ⟨r, hr, hsv⟩
    refine ⟨?_, ?_, ?_⟩
    · rw [hfm]
      simp only [Int.reduceNeg, zero_eq_neg, one_ne_zero, false_iff, not_not]
      exact hyes
    · rw [hfm]
      constructor
      · intro h
        simp only [Prod.mk.injEq] at h
        exact absurd h.1 (show ¬ ((0 : Int) = -1) by decide)
      · intro h; exact absurd hyes h
    · intro _; exact ⟨r, hr, hsv, hfm⟩

/-- Witness of C6: the table "/", "/data" and the path "/data/x". -/
theorem find_mount_notfound_iff_witness :
    ((find_mount (env_linux [row_root, row_data]) p_data_x ⟨7⟩).1 = -1 ↔
      ¬ ∃ r ∈ [row_root, row_data],
        survives (env_linux [row_root, row_data]) ⟨7⟩
          ((env_linux [row_root, row_data]).real_pathdup p_data_x) r) ∧
    (find_mount (env_linux [row_root, row_data]) p_data_x ⟨7⟩ =
        (-1, ⟨none, none, none⟩) ↔
      ¬ ∃ r ∈ [row_root, row_data],
        survives (env_linux [row_root, row_data]) ⟨7⟩
          ((env_linux [row_root, row_data]).real_pathdup p_data_x) r) ∧
    ((∃ r ∈ [row_root, row_data],
        survives (env_linux [row_root, row_data]) ⟨7⟩
          ((env_linux [row_root, row_data]).real_pathdup p_data_x) r) →
      ∃ r ∈ [row_root, row_data],
        survives (env_linux [row_root, row_data]) ⟨7⟩
          ((env_linux [row_root, row_data]).real_pathdup p_data_x) r ∧
        find_mount (env_linux [row_root, row_data]) p_data_x ⟨7⟩ = (0, copy_of r)) :=
  find_mount_notfound_iff (env_linux [row_root, row_data]) p_data_x ⟨7⟩
    [row_root, row_data] rfl
    (by
      intro r hr
      apply not_fatal_of_stat_same _ ⟨7⟩ r
      rcases List.mem_cons.1 hr with h | h
      · rw [h]; exact ⟨⟨7⟩, by decide, rfl⟩
      · rw [List.mem_singleton.1 h]; exact ⟨⟨7⟩, by decide, rfl⟩)
    (by decide)

/-- C7. Fatal stat error aborts: when some record of the table has a
`statvfs` that fails with an errno other than EPERM, ESRCH and EACCES,
`find_mount` returns -1, wherever that record stands and whatever was found
before it, and `fsmonitor__get_fs_info` returns -1 too. -/
theorem find_mount_fatal_aborts (env : Env) (path : CStr) (fs : statvfs_t)
    (rows : List mntent) (hs : env.setmntent = some rows)
    (hf : ∃ r ∈ rows, fatal env r) :
    (find_mount env path fs).1 = -1 ∧ (fsmonitor__get_fs_info env path).1 = -1 := by
  have hfm : ∀ fs1, (find_mount env path fs1).1 = -1 := by
    intro fs1
    obtain ⟨st, hl⟩ := loop_fatal env fs1 (env.real_pathdup path) rows hf find_init
    simp only [find_mount, hs, hl]
  refine ⟨hfm fs, ?_⟩
  unfold fsmonitor__get_fs_info
  cases hp : env.statvfs path with
  | fail e => rfl
  | ok fs1 =>
    simp only [hfm fs1]
    rw [if_pos (by decide)]

/-- Witness of C7: "/" matches first, then `statvfs` on "/data" fails with
EIO. -/
theorem find_mount_fatal_aborts_witness :
    (find_mount env_fatal p_data_x ⟨7⟩).1 = -1 ∧
      (fsmonitor__get_fs_info env_fatal p_data_x).1 = -1 :=
  find_mount_fatal_aborts env_fatal p_data_x ⟨7⟩ [row_root, row_data] rfl
    ⟨row_data, by decide, 5, by decide, by decide, by decide, by decide⟩

/-- The four ways in which `fsmonitor__get_fs_info` ends: the path's own
`statvfs` fails; `find_mount` fails; `statfs` on the resolved directory
fails; or all three succeed. -/
theorem get_fs_info_cases (env : Env) (path : CStr) :
    ((∃ e, env.statvfs path = statvfs_ret.fail e) ∧
      fsmonitor__get_fs_info env path = (-1, ⟨-1, none⟩)) ∨
    (∃ fs, env.statvfs path = statvfs_ret.ok fs ∧
      (find_mount env path fs).1 = -1 ∧
      fsmonitor__get_fs_info env path = (-1, ⟨-1, none⟩)) ∨
    (∃ fs r, env.statvfs path = statvfs_ret.ok fs ∧
      find_mount env path fs = (0, copy_of r) ∧
      (∃ e, statfs_ptr env (some r.mnt_dir) = statfs_ret.fail e) ∧
      fsmonitor__get_fs_info env path = (-1, ⟨-1, some r.mnt_fsname⟩)) ∨
    (∃ fs r, env.statvfs path = statvfs_ret.ok fs ∧
      find_mount env path fs = (0, copy_of r) ∧
      (is_remote_fs env (some r.mnt_dir) = 0 ∨
        is_remote_fs env (some r.mnt_dir) = 1) ∧
      fsmonitor__get_fs_info env path =
        (0, ⟨is_remote_fs env (some r.mnt_dir), some r.mnt_fsname⟩)) := by
  unfold fsmonitor__get_fs_info
  cases hp : env.statvfs path with
  | fail e => exact Or.inl ⟨⟨e, rfl⟩, rfl⟩
  | ok fs =>
    right
    simp only
    rcases find_mount_rc env path fs with hrc | hrc
    · right
      obtain ⟨rows, _, _, r, _, _, _, he, _⟩ :=
        find_mount_success env path fs (find_mount env path fs).2 (by rw [← hrc])
      have hfm : find_mount env path fs = (0, copy_of r) := by rw [← he, ← hrc]
      rw [hfm]
      simp only [copy_of, lt_self_iff_false, if_false]
      cases hst : statfs_ptr env (some r.mnt_dir) with
      | fail e =>
        left
        have c : is_remote_fs env (some r.mnt_dir) = -1 := by
          simp only [is_remote_fs, hst]
        refine ⟨fs, r, rfl, hfm, ⟨e, hst⟩, ?_⟩
        rw [c, if_pos (by decide)]
      | ok t =>
        right
        rcases is_remote_fs_range env (some r.mnt_dir) with c | c | c
        · simp only [is_remote_fs, hst] at c
          split at c <;> simp at c
        · refine ⟨fs, r, rfl, hfm, Or.inl c, ?_⟩
          rw [c, if_neg (by decide)]
        · refine ⟨fs, r, rfl, hfm, Or.inr c, ?_⟩
          rw [c, if_neg (by decide)]
    · left
      refine ⟨fs, rfl, hrc, ?_⟩
      rw [hrc, if_pos (by decide)]

/-- C8. `fsmonitor__is_fs_remote` is the projection of
`fsmonitor__get_fs_info`: in every environment its value is the `is_remote`
field that `fsmonitor__get_fs_info` leaves; it is -1 exactly when
`fsmonitor__get_fs_info` returns non-zero, and 0 or 1 exactly when it
returns 0. -/
theorem is_fs_remote_projection (env : Env) (path : CStr) :
    fsmonitor__is_fs_remote env path =
      (fsmonitor__get_fs_info env path).2.is_remote ∧
    (fsmonitor__is_fs_remote env path = -1 ↔
      (fsmonitor__get_fs_info env path).1 ≠ 0) ∧
    ((fsmonitor__is_fs_remote env path = 0 ∨ fsmonitor__is_fs_remote env path = 1) ↔
      (fsmonitor__get_fs_info env path).1 = 0) := by
  unfold fsmonitor__is_fs_remote
  rcases get_fs_info_cases env path with ⟨_, h⟩ | ⟨_, _, _, h⟩ | ⟨_, _, _, _, _, h⟩ |
      ⟨_, r, _, _, c, h⟩
  · rw [h]; simp
  · rw [h]; simp
  · rw [h]; simp
  · rw [h]
    rcases c with c | c <;> rw [c] <;> simp

/-- Counterexample to C9 as stated: `statfs` fails on the resolved mount
directory "/", and `fsmonitor__get_fs_info` returns -1 with `is_remote = -1`
while `typename` is already set to the mount's source name. -/
theorem get_fs_info_typename_counterexample :
    fsmonitor__get_fs_info env_statfs_fail p_data_x = (-1, ⟨-1, some s_sda1⟩) := by
  decide

/-- C9, amended. `fsmonitor__get_fs_info` either returns 0 with `is_remote`
0 or 1 and `typename` set, or returns -1 with `is_remote = -1`.  When it
fails because `statfs` fails on the directory of the resolved record,
`typename` is set to that record's `mnt_fsname`; when it fails because the
path's own `statvfs` or `find_mount` fails, `typename` is NULL; so on failure
`typename` is set exactly in the first case. -/
theorem get_fs_info_outcomes (env : Env) (path : CStr) :
    (((fsmonitor__get_fs_info env path).1 = 0 ∧
        ((fsmonitor__get_fs_info env path).2.is_remote = 0 ∨
          (fsmonitor__get_fs_info env path).2.is_remote = 1) ∧
        (fsmonitor__get_fs_info env path).2.typename ≠ none) ∨
      ((fsmonitor__get_fs_info env path).1 = -1 ∧
        (fsmonitor__get_fs_info env path).2.is_remote = -1)) ∧
    (∀ fs r e, env.statvfs path = statvfs_ret.ok fs →
      find_mount env path fs = (0, copy_of r) →
      env.statfs r.mnt_dir = statfs_ret.fail e →
      fsmonitor__get_fs_info env path = (-1, ⟨-1, some r.mnt_fsname⟩)) ∧
    (∀ e, env.statvfs path = statvfs_ret.fail e →
      fsmonitor__get_fs_info env path = (-1, ⟨-1, none⟩)) ∧
    (∀ fs, env.statvfs path = statvfs_ret.ok fs →
      (find_mount env path fs).1 = -1 →
      fsmonitor__get_fs_info env path = (-1, ⟨-1, none⟩)) ∧
    ((fsmonitor__get_fs_info env path).1 = -1 →
      ((fsmonitor__get_fs_info env path).2.typename ≠ none ↔
        ∃ fs r e, env.statvfs path = statvfs_ret.ok fs ∧
          find_mount env path fs = (0, copy_of r) ∧
          env.statfs r.mnt_dir = statfs_ret.fail e)) := by
  have p3 : ∀ fs r e, env.statvfs path = statvfs_ret.ok fs →
      find_mount env path fs = (0, copy_of r) →
      env.statfs r.mnt_dir = statfs_ret.fail e →
      fsmonitor__get_fs_info env path = (-1, ⟨-1, some r.mnt_fsname⟩) := by
    intro fs r e h1 h2 h3
    simp only [fsmonitor__get_fs_info, h1, h2, copy_of, is_remote_fs, statfs_ptr, h3]
    rw [if_neg (by decide), if_pos (by decide)]
  have p1 : ∀ e, env.statvfs path = statvfs_ret.fail e →
      fsmonitor__get_fs_info env path = (-1, ⟨-1, none⟩) := by
    intro e h1
    simp only [fsmonitor__get_fs_info, h1, error_errno]
  have p2 : ∀ fs, env.statvfs path = statvfs_ret.ok fs →
      (find_mount env path fs).1 = -1 →
      fsmonitor__get_fs_info env path = (-1, ⟨-1, none⟩) := by
    intro fs h1 h2
    simp only [fsmonitor__get_fs_info, h1, h2]
    rw [if_pos (by decide)]
  refine ⟨?_, p3, p1, p2, ?_⟩
  · rcases get_fs_info_cases env path with ⟨_, h⟩ | ⟨_, _, _, h⟩ | ⟨_, _, _, _, _, h⟩ |
        ⟨_, r, _, _, c, h⟩
    · right; rw [h]; exact ⟨rfl, rfl⟩
    · right; rw [h]; exact ⟨rfl, rfl⟩
    · right; rw [h]; exact ⟨rfl, rfl⟩
    · left; rw [h]; exact ⟨rfl, c, by simp⟩
  · intro hrc
    rcases get_fs_info_cases env path with ⟨⟨e, he⟩, h⟩ | ⟨fs, h1, h2, h⟩ |
        ⟨fs, r, h1, h2, ⟨e, h3⟩, h⟩ | ⟨_, r, _, _, c, h⟩
    · rw [h]
      constructor
      · intro hn; exact absurd rfl hn
      · rintro ⟨fs, _, _, h1, _, _⟩
        rw [he] at h1
        cases h1
    · rw [h]
      constructor
      · intro hn; exact absurd rfl hn
      · rintro ⟨fs1, r, _, h3, h4, _⟩
        rw [h1] at h3
        cases h3
        rw [h4] at h2
        exact absurd h2 (show ¬ ((0 : Int) = -1) by decide)
    · rw [h]
      exact ⟨fun _ => ⟨fs, r, e, h1, h2, h3⟩, fun _ => by simp⟩
    · rw [h] at hrc
      exact absurd hrc (show ¬ ((0 : Int) = -1) by decide)

/-- Witness of C9, amended: `statfs` fails on the resolved directory "/" of
the path "/data/x", and `typename` holds the source name of that record. -/
theorem get_fs_info_outcomes_witness :
    fsmonitor__get_fs_info env_statfs_fail p_data_x =
        (-1, ⟨-1, some row_root.mnt_fsname⟩) ∧
    (fsmonitor__get_fs_info env_statfs_fail p_data_x).2.typename ≠ none :=
  ⟨(get_fs_info_outcomes env_statfs_fail p_data_x).2.1 ⟨7⟩ row_root 5 rfl
      (by decide) rfl,
    ((get_fs_info_outcomes env_statfs_fail p_data_x).2.2.2.2 (by decide)).2
      ⟨⟨7⟩, row_root, 5, rfl, by decide, rfl⟩⟩

/-- C10. Mount table unavailable: when the path's own `statvfs` succeeds and
`setmntent` fails, `fsmonitor__get_fs_info` returns -1 and leaves
`is_remote = -1` and `typename = NULL`. -/
theorem get_fs_info_no_mount_table (env : Env) (path : CStr) (fs : statvfs_t)
    (hp : env.statvfs path = statvfs_ret.ok fs) (hs : env.setmntent = none) :
    (find_mount env path fs).1 = -1 ∧
    fsmonitor__get_fs_info env path = (-1, ⟨-1, none⟩) := by
  have hfm : find_mount env path fs = (-1, find_init.entry) := by
    simp only [find_mount, hs]
  refine ⟨by rw [hfm], ?_⟩
  simp only [fsmonitor__get_fs_info, hp, hfm]
  rw [if_pos (by decide)]

/-- Witness of C10: `setmntent` fails for the stat-able path "/data/x". -/
theorem get_fs_info_no_mount_table_witness :
    (find_mount env_no_table p_data_x ⟨7⟩).1 = -1 ∧
    fsmonitor__get_fs_info env_no_table p_data_x = (-1, ⟨-1, none⟩) :=
  get_fs_info_no_mount_table env_no_table p_data_x ⟨7⟩ rfl rfl

/-- C11. Target stat failure: when `statvfs` on the path fails,
`fsmonitor__get_fs_info` returns -1 with `is_remote = -1` and
`typename = NULL`, and the mount table is not consulted: the result is the
same whatever `setmntent` would give. -/
theorem get_fs_info_target_stat_failure (env : Env) (path : CStr) (e : Nat)
    (hp : env.statvfs path = statvfs_ret.fail e) :
    fsmonitor__get_fs_info env path = (-1, ⟨-1, none⟩) ∧
    ∀ tbl : Option (List mntent),
      fsmonitor__get_fs_info { env with setmntent := tbl } path =
        fsmonitor__get_fs_info env path := by
  have h0 : fsmonitor__get_fs_info env path = (-1, ⟨-1, none⟩) := by
    simp only [fsmonitor__get_fs_info, hp, error_errno]
  refine ⟨h0, ?_⟩
  intro tbl
  rw [h0]
  simp only [fsmonitor__get_fs_info, hp, error_errno]

/-- Witness of C11: every `statvfs` fails with ENOENT; the table holds "/". -/
theorem get_fs_info_target_stat_failure_witness :
    fsmonitor__get_fs_info (env_no_stat (some [row_root])) p_data_x =
      (-1, ⟨-1, none⟩) ∧
    ∀ tbl : Option (List mntent),
      fsmonitor__get_fs_info
          { env_no_stat (some [row_root]) with setmntent := tbl } p_data_x =
        fsmonitor__get_fs_info (env_no_stat (some [row_root])) p_data_x :=
  get_fs_info_target_stat_failure (env_no_stat (some [row_root])) p_data_x 2 rfl

/-- Counterexample to C12 as stated: two environments with the same mount
table, the same `statvfs` and the same resolved record, whose recorded type
is "nfs" in both, differ in `is_remote` because `statfs` on "/mnt/nfs"
reports 0x6969 in one and 0xEF53 in the other. -/
theorem get_fs_info_mnt_type_counterexample :
    env_nfs.setmntent = env_nfs_as_local.setmntent ∧
    find_mount env_nfs p_nfs_file ⟨9⟩ = (0, copy_of row_nfs) ∧
    find_mount env_nfs_as_local p_nfs_file ⟨9⟩ = (0, copy_of row_nfs) ∧
    row_nfs.mnt_type = s_nfs ∧
    fsmonitor__get_fs_info env_nfs p_nfs_file = (0, ⟨1, some s_share⟩) ∧
    fsmonitor__get_fs_info env_nfs_as_local p_nfs_file = (0, ⟨0, some s_share⟩) := by
  decide

/-- C12, amended. The `is_remote` verdict of `fsmonitor__get_fs_info` is
keyed on what `statfs` reports for the directory of the resolved record, not
on the recorded `mnt_type`: two environments in which `find_mount` resolves
records with the same `mnt_dir` and in which `statfs` on that directory gives
the same outcome yield the same return code and the same `is_remote`,
whatever the records' `mnt_type`. -/
theorem get_fs_info_keyed_on_statfs (env1 env2 : Env) (path : CStr)
    (fs1 fs2 : statvfs_t) (r1 r2 : mntent)
    (h1 : env1.statvfs path = statvfs_ret.ok fs1)
    (h2 : env2.statvfs path = statvfs_ret.ok fs2)
    (hf1 : find_mount env1 path fs1 = (0, copy_of r1))
    (hf2 : find_mount env2 path fs2 = (0, copy_of r2))
    (hd : r1.mnt_dir = r2.mnt_dir)
    (hst : env1.statfs r1.mnt_dir = env2.statfs r1.mnt_dir) :
    (fsmonitor__get_fs_info env1 path).1 = (fsmonitor__get_fs_info env2 path).1 ∧
    (fsmonitor__get_fs_info env1 path).2.is_remote =
      (fsmonitor__get_fs_info env2 path).2.is_remote ∧
    (fsmonitor__get_fs_info env1 path).2.is_remote =
      is_remote_fs env1 (some r1.mnt_dir) := by
  have hc : is_remote_fs env2 (some r2.mnt_dir) = is_remote_fs env1 (some r1.mnt_dir) := by
    simp only [is_remote_fs, statfs_ptr, ← hd, hst]
  have e1 : fsmonitor__get_fs_info env1 path =
      if is_remote_fs env1 (some r1.mnt_dir) < 0 then
        (-1, ⟨is_remote_fs env1 (some r1.mnt_dir), some r1.mnt_fsname⟩)
      else (0, ⟨is_remote_fs env1 (some r1.mnt_dir), some r1.mnt_fsname⟩) := by
    simp only [fsmonitor__get_fs_info, h1, hf1, copy_of]
    rw [if_neg (by decide)]
  have e2 : fsmonitor__get_fs_info env2 path =
      if is_remote_fs env1 (some r1.mnt_dir) < 0 then
        (-1, ⟨is_remote_fs env1 (some r1.mnt_dir), some r2.mnt_fsname⟩)
      else (0, ⟨is_remote_fs env1 (some r1.mnt_dir), some r2.mnt_fsname⟩) := by
    simp only [fsmonitor__get_fs_info, h2, hf2, copy_of, hc]
    rw [if_neg (by decide)]
  rw [e1, e2]
  by_cases c : is_remote_fs env1 (some r1.mnt_dir) < 0
  · simp only [c, if_true, and_self]
  · simp only [c, if_false, and_self]

/-- Witness of C12, amended: the table records "nfs" in one environment and
"ext4" in the other, `statfs` reports 0x6969 in both. -/
theorem get_fs_info_keyed_on_statfs_witness :
    (fsmonitor__get_fs_info env_nfs p_nfs_file).1 =
      (fsmonitor__get_fs_info env_nfs_retyped p_nfs_file).1 ∧
    (fsmonitor__get_fs_info env_nfs p_nfs_file).2.is_remote =
      (fsmonitor__get_fs_info env_nfs_retyped p_nfs_file).2.is_remote ∧
    (fsmonitor__get_fs_info env_nfs p_nfs_file).2.is_remote =
      is_remote_fs env_nfs (some row_nfs.mnt_dir) :=
  get_fs_info_keyed_on_statfs env_nfs env_nfs_retyped p_nfs_file ⟨9⟩ ⟨9⟩
    row_nfs row_nfs_ext4 (by decide) (by decide) (by decide) (by decide) rfl rfl

/-! ## Independence of the process state -/

theorem is_remote_fs_w_fst (env : Env) (path : Option CStr) (w : World) :
    (is_remote_fs_w env path w).1 = is_remote_fs env path := by
  unfold is_remote_fs_w is_remote_fs
  cases statfs_ptr env path with
  | fail e => rfl
  | ok t =>
    simp only
    split <;> rfl

theorem find_mount_body_w_fst (env : Env) (fs : statvfs_t) (rp : CStr)
    (plen : Nat) (w : World) (st : find_state) :
    (find_mount_body_w env fs rp plen w st).1 =
      find_mount_body env fs rp plen st w.mnt_area := by
  cases h : env.statvfs w.mnt_area.mnt_dir with
  | fail e =>
    simp only [find_mount_body_w, find_mount_body, h]
    split_ifs <;> rfl
  | ok m =>
    simp only [find_mount_body_w, find_mount_body, h]
    split_ifs <;> rfl

theorem find_mount_loop_w_fst (env : Env) (fs : statvfs_t) (rp : CStr)
    (plen : Nat) (rows : List mntent) (w : World) (st : find_state) :
    (find_mount_loop_w env fs rp plen rows w st).1 =
      find_mount_loop env fs rp plen rows st := by
  induction rows generalizing w st with
  | nil => rfl
  | cons row rest ih =>
    have hb := find_mount_body_w_fst env fs rp plen { w with mnt_area := row } st
    simp only [find_mount_loop_w, find_mount_loop]
    cases hw : find_mount_body_w env fs rp plen { w with mnt_area := row } st with
    | mk s w1 =>
      rw [hw] at hb
      simp only at hb
      rw [← hb]
      cases s with
      | ret s1 => rfl
      | next s1 => exact ih w1 s1

theorem find_mount_w_eq (env : Env) (path : CStr) (fs : statvfs_t) (w : World)
    (entry_in : mntent_out) :
    ((find_mount_w env path fs w entry_in).1,
      (find_mount_w env path fs w entry_in).2.1) = find_mount env path fs := by
  unfold find_mount_w find_mount
  cases env.setmntent with
  | none => rfl
  | some rows =>
    have hl := find_mount_loop_w_fst env fs (env.real_pathdup path)
      (strlen (env.real_pathdup path)) rows w find_init
    simp only
    cases hw : find_mount_loop_w env fs (env.real_pathdup path)
        (strlen (env.real_pathdup path)) rows w
        { found := false, flen := 0,
          entry := { mnt_fsname := none, mnt_dir := none, mnt_type := none } } with
    | mk s w1 =>
      have hl1 : s = find_mount_loop env fs (env.real_pathdup path)
          (strlen (env.real_pathdup path)) rows find_init := by
        rw [← hl]
        show s = (find_mount_loop_w env fs (env.real_pathdup path)
          (strlen (env.real_pathdup path)) rows w
          { found := false, flen := 0,
            entry := { mnt_fsname := none, mnt_dir := none, mnt_type := none } }).1
        rw [hw]
      rw [← hl1]
      cases s with
      | ret s1 => rfl
      | next s1 =>
        simp only
        split <;> rfl

theorem get_fs_info_w_eq (env : Env) (path : CStr) (w : World)
    (info_in : fs_info) (entry_in : mntent_out) :
    ((fsmonitor__get_fs_info_w env path w info_in entry_in).1,
      (fsmonitor__get_fs_info_w env path w info_in entry_in).2.1) =
      fsmonitor__get_fs_info env path := by
  unfold fsmonitor__get_fs_info_w fsmonitor__get_fs_info
  cases env.statvfs path with
  | fail e => rfl
  | ok fs =>
    have hf := find_mount_w_eq env path fs w entry_in
    have hf1 : (find_mount_w env path fs w entry_in).1 = (find_mount env path fs).1 := by
      rw [← hf]
    have hf2 : (find_mount_w env path fs w entry_in).2.1 = (find_mount env path fs).2 := by
      rw [← hf]
    simp only [hf1, hf2, is_remote_fs_w_fst]
    split
    · rfl
    · split <;> rfl

/-- C13. Determinism, no residual state: for a fixed path and environment,
the return code and the `fs_info` of `fsmonitor__get_fs_info` do not depend
on the process state left by earlier calls (`errno`, the static area of
`getmntent`, the previous contents of the caller's `fs_info` and of the
local `entry`); a second call, started in the state the first one left,
returns the same return code, `is_remote` and `typename`. -/
theorem get_fs_info_deterministic (env : Env) (path : CStr) :
    (∀ (w1 w2 : World) (i1 i2 : fs_info) (g1 g2 : mntent_out),
      (fsmonitor__get_fs_info_w env path w1 i1 g1).1 =
        (fsmonitor__get_fs_info_w env path w2 i2 g2).1 ∧
      (fsmonitor__get_fs_info_w env path w1 i1 g1).2.1 =
        (fsmonitor__get_fs_info_w env path w2 i2 g2).2.1) ∧
    (∀ (w : World) (i : fs_info) (g1 g2 : mntent_out),
      (fsmonitor__get_fs_info_w env path
          (fsmonitor__get_fs_info_w env path w i g1).2.2
          (fsmonitor__get_fs_info_w env path w i g1).2.1 g2).1 =
        (fsmonitor__get_fs_info_w env path w i g1).1 ∧
      (fsmonitor__get_fs_info_w env path
          (fsmonitor__get_fs_info_w env path w i g1).2.2
          (fsmonitor__get_fs_info_w env path w i g1).2.1 g2).2.1 =
        (fsmonitor__get_fs_info_w env path w i g1).2.1) ∧
    (∀ (w : World) (i : fs_info) (g : mntent_out),
      (fsmonitor__get_fs_info_w env path w i g).1 =
        (fsmonitor__get_fs_info env path).1 ∧
      (fsmonitor__get_fs_info_w env path w i g).2.1 =
        (fsmonitor__get_fs_info env path).2) := by
  have key : ∀ (w : World) (i : fs_info) (g : mntent_out),
      (fsmonitor__get_fs_info_w env path w i g).1 =
        (fsmonitor__get_fs_info env path).1 ∧
      (fsmonitor__get_fs_info_w env path w i g).2.1 =
        (fsmonitor__get_fs_info env path).2 := by
    intro w i g
    have h := get_fs_info_w_eq env path w i g
    constructor
    · rw [← h]
    · rw [← h]
  refine ⟨?_, ?_, key⟩
  · intro w1 w2 i1 i2 g1 g2
    exact ⟨(key w1 i1 g1).1.trans (key w2 i2 g2).1.symm,
      (key w1 i1 g1).2.trans (key w2 i2 g2).2.symm⟩
  · intro w i g1 g2
    exact ⟨(key _ _ g2).1.trans (key w i g1).1.symm,
      (key _ _ g2).2.trans (key w i g1).2.symm⟩

/-! ## Ties and the order of the table -/

/-- When the loop runs to the end, either nothing was copied and no surviving
record is longer than the initial `flen`, or the copied record is the first
one of maximal length among the surviving records longer than `flen`. -/
theorem loop_next_first (env : Env) (fs : statvfs_t) (rp : CStr)
    (rows : List mntent) (st st1 : find_state)
    (h : find_mount_loop env fs rp (strlen rp) rows st = step_ret.next st1) :
    (st1 = st ∧ ∀ x ∈ rows, survives env fs rp x → strlen x.mnt_dir ≤ st.flen) ∨
    (∃ pre r post, rows = pre ++ r :: post ∧ survives env fs rp r ∧
      st.flen < strlen r.mnt_dir ∧ st1 = ⟨true, strlen r.mnt_dir, copy_of r⟩ ∧
      (∀ x ∈ pre, survives env fs rp x → strlen x.mnt_dir < strlen r.mnt_dir) ∧
      (∀ x ∈ post, survives env fs rp x → strlen x.mnt_dir ≤ strlen r.mnt_dir)) := by
  induction rows generalizing st with
  | nil =>
    simp only [find_mount_loop, step_ret.next.injEq] at h
    exact Or.inl ⟨h.symm, by simp⟩
  | cons a rest ih =>
    by_cases ha : fatal env a
    · simp [find_mount_loop, body_fatal env fs rp _ st a ha] at h
    by_cases c : survives env fs rp a ∧ st.flen < strlen a.mnt_dir
    · simp only [find_mount_loop, body_take env fs rp st a c.1 c.2] at h
      right
      rcases ih _ h with ⟨h1, h2⟩ | ⟨pre, r, post, e1, e2, e3, e4, e5, e6⟩
      · exact ⟨[], a, rest, rfl, c.1, c.2, h1, by simp, h2⟩
      · simp only at e3
        refine ⟨a :: pre, r, post, by rw [e1]; rfl, e2, by omega, e4, ?_, e6⟩
        intro x hx hs
        rcases List.mem_cons.1 hx with rfl | hx1
        · exact e3
        · exact e5 x hx1 hs
    · simp only [find_mount_loop, body_keep env fs rp st a ha c] at h
      rcases ih _ h with ⟨h1, h2⟩ | ⟨pre, r, post, e1, e2, e3, e4, e5, e6⟩
      · left
        refine ⟨h1, ?_⟩
        intro x hx hs
        rcases List.mem_cons.1 hx with rfl | hx1
        · have : ¬ st.flen < strlen x.mnt_dir := fun hl => c ⟨hs, hl⟩
          omega
        · exact h2 x hx1 hs
      · right
        refine ⟨a :: pre, r, post, by rw [e1]; rfl, e2, e3, e4, ?_, e6⟩
        intro x hx hs
        rcases List.mem_cons.1 hx with rfl | hx1
        · have : ¬ st.flen < strlen x.mnt_dir := fun hl => c ⟨hs, hl⟩
          omega
        · exact e5 x hx1 hs

/-- The first record of maximal length among the survivors is unique as a
position of the table. -/
theorem first_longest_unique (P : mntent → Prop) (len : mntent → Nat)
    (pre1 post1 pre2 post2 : List mntent) (r1 r2 : mntent)
    (he : pre1 ++ r1 :: post1 = pre2 ++ r2 :: post2)
    (p1 : P r1) (p2 : P r2)
    (a1 : ∀ x ∈ pre1, P x → len x < len r1)
    (b1 : ∀ x ∈ post1, P x → len x ≤ len r1)
    (a2 : ∀ x ∈ pre2, P x → len x < len r2)
    (b2 : ∀ x ∈ post2, P x → len x ≤ len r2) :
    r1 = r2 := by
  rcases List.append_eq_append_iff.1 he with ⟨t, h1, h2⟩ | ⟨t, h1, h2⟩
  · cases t with
    | nil =>
      simp only [List.nil_append, List.cons.injEq] at h2
      exact h2.1
    | cons c t1 =>
      simp only [List.cons_append, List.cons.injEq] at h2
      have m1 : r1 ∈ pre2 := by rw [h1, h2.1]; simp
      have m2 : r2 ∈ post1 := by rw [h2.2]; simp
      have := a2 r1 m1 p1
      have := b1 r2 m2 p2
      omega
  · cases t with
    | nil =>
      simp only [List.nil_append, List.cons.injEq] at h2
      exact h2.1.symm
    | cons c t1 =>
      simp only [List.cons_append, List.cons.injEq] at h2
      have m1 : r2 ∈ pre1 := by rw [h1, h2.1]; simp
      have m2 : r1 ∈ post2 := by rw [h2.2]; simp
      have := a1 r2 m1 p2
      have := b2 r1 m2 p1
      omega

/-- C14. Tie-breaking by table order: the record that `find_mount` returns is
the earliest record of maximal `mnt_dir` length among the surviving records:
every surviving record before it is strictly shorter, every one after it is
at most as long.  On a table without a fatal record that earliest record is
returned; and a record replaces the current best only when its `mnt_dir` is
strictly longer. -/
theorem find_mount_tie_break :
    (∀ (env : Env) (path : CStr) (fs : statvfs_t) (rows : List mntent)
        (e : mntent_out),
      env.setmntent = some rows → find_mount env path fs = (0, e) →
      ∃ pre r post, rows = pre ++ r :: post ∧ e = copy_of r ∧
        survives env fs (env.real_pathdup path) r ∧
        (∀ x ∈ pre, survives env fs (env.real_pathdup path) x →
          strlen x.mnt_dir < strlen r.mnt_dir) ∧
        (∀ x ∈ post, survives env fs (env.real_pathdup path) x →
          strlen x.mnt_dir ≤ strlen r.mnt_dir)) ∧
    (∀ (env : Env) (path : CStr) (fs : statvfs_t) (pre post : List mntent)
        (r : mntent),
      env.setmntent = some (pre ++ r :: post) →
      (∀ x ∈ pre ++ r :: post, ¬ fatal env x) →
      survives env fs (env.real_pathdup path) r → 0 < strlen r.mnt_dir →
      (∀ x ∈ pre, survives env fs (env.real_pathdup path) x →
        strlen x.mnt_dir < strlen r.mnt_dir) →
      (∀ x ∈ post, survives env fs (env.real_pathdup path) x →
        strlen x.mnt_dir ≤ strlen r.mnt_dir) →
      find_mount env path fs = (0, copy_of r)) ∧
    (∀ (env : Env) (fs : statvfs_t) (rp : CStr) (plen : Nat) (b r : mntent)
        (st1 : find_state),
      find_mount_body env fs rp plen ⟨true, strlen b.mnt_dir, copy_of b⟩ r =
        step_ret.next st1 →
      st1 ≠ ⟨true, strlen b.mnt_dir, copy_of b⟩ →
      strlen b.mnt_dir < strlen r.mnt_dir ∧
        st1 = ⟨true, strlen r.mnt_dir, copy_of r⟩) := by
  refine ⟨?_, ?_, ?_⟩
  · intro env path fs rows e hs h
    unfold find_mount at h
    simp only [hs] at h
    cases hl : find_mount_loop env fs (env.real_pathdup path)
        (strlen (env.real_pathdup path)) rows find_init with
    | ret st => simp [hl] at h
    | next st =>
      simp only [hl] at h
      rcases loop_next_first env fs _ rows _ _ hl with ⟨h1, _⟩ |
          ⟨pre, r, post, e1, e2, _, e4, e5, e6⟩
      · subst h1
        simp [find_init] at h
      · subst e4
        simp only [Bool.true_eq_false, if_false, Prod.mk.injEq, true_and] at h
        exact ⟨pre, r, post, e1, h.symm, e2, e5, e6⟩
  · intro env path fs pre post r hs hnf hsv hlen ha hb
    obtain ⟨st, hl⟩ := loop_no_fatal env fs (env.real_pathdup path) _ hnf find_init
    rcases loop_next_first env fs _ _ _ _ hl with ⟨_, h2⟩ |
        ⟨pre2, r2, post2, e1, e2, _, e4, e5, e6⟩
    · have := h2 r (by simp) hsv
      simp only [find_init] at this
      omega
    · have hr : r = r2 :=
        first_longest_unique (survives env fs (env.real_pathdup path))
          (fun x => strlen x.mnt_dir) pre post pre2 post2 r r2 e1 hsv e2 ha hb e5 e6
      subst e4
      rw [hr]
      simp only [find_mount, hs, hl]
      rfl
  · intro env fs rp plen b r st1 h hne
    unfold find_mount_body at h
    cases hst : env.statvfs r.mnt_dir with
    | fail e =>
      simp only [hst] at h
      split_ifs at h
      · simp only [step_ret.next.injEq] at h
        exact absurd h.symm hne
    | ok m =>
      simp only [hst] at h
      split_ifs at h with c1 c2 c3
      · simp only [step_ret.next.injEq] at h
        exact absurd h.symm hne
      · simp only [step_ret.next.injEq] at h
        exact ⟨c3.1, h.symm⟩
      · simp only [step_ret.next.injEq] at h
        exact absurd h.symm hne
      · simp only [step_ret.next.injEq] at h
        exact absurd h.symm hne

/-- Witness of C14: two records of "/" on the path's identity; the earlier
one is returned for "/data/x". -/
theorem find_mount_tie_break_witness :
    find_mount (env_local [row_root, row_root_b]) p_data_x ⟨7⟩ =
      (0, copy_of row_root) ∧
    ∃ pre r post, [row_root, row_root_b] = pre ++ r :: post ∧
      copy_of row_root = copy_of r ∧
      survives (env_local [row_root, row_root_b]) ⟨7⟩
        ((env_local [row_root, row_root_b]).real_pathdup p_data_x) r ∧
      (∀ x ∈ pre, survives (env_local [row_root, row_root_b]) ⟨7⟩
          ((env_local [row_root, row_root_b]).real_pathdup p_data_x) x →
        strlen x.mnt_dir < strlen r.mnt_dir) ∧
      (∀ x ∈ post, survives (env_local [row_root, row_root_b]) ⟨7⟩
          ((env_local [row_root, row_root_b]).real_pathdup p_data_x) x →
        strlen x.mnt_dir ≤ strlen r.mnt_dir) :=
  ⟨by decide,
    find_mount_tie_break.1 (env_local [row_root, row_root_b]) p_data_x ⟨7⟩
      [row_root, row_root_b] (copy_of row_root) rfl (by decide)⟩

theorem copy_of_inj (a b : mntent) (h : copy_of a = copy_of b) : a = b := by
  cases a
  cases b
  simp only [copy_of, mntent_out.mk.injEq, Option.some.injEq] at h
  obtain ⟨h1, h2, h3⟩ := h
  subst h1 h2 h3
  rfl

/-- Two surviving records of the same length have the same directory. -/
theorem survives_same_len (env : Env) (fs : statvfs_t) (rp : CStr)
    (a b : mntent) (ha : survives env fs rp a) (hb : survives env fs rp b)
    (hl : strlen a.mnt_dir = strlen b.mnt_dir) : a.mnt_dir = b.mnt_dir := by
  apply Subtype.ext
  have h1 : a.mnt_dir.val <+: b.mnt_dir.val :=
    List.prefix_of_prefix_length_le ha.2.1 hb.2.1 (le_of_eq hl)
  exact h1.eq_of_length hl

/-- A successful `find_mount` returns a record that is maximal among the
surviving records. -/
theorem find_mount_result_max (env : Env) (path : CStr) (fs : statvfs_t)
    (rows : List mntent) (r : mntent) (hs : env.setmntent = some rows)
    (h : find_mount env path fs = (0, copy_of r)) :
    ∀ x ∈ rows, survives env fs (env.real_pathdup path) x →
      strlen x.mnt_dir ≤ strlen r.mnt_dir := by
  obtain ⟨rows1, hs1, _, r1, _, _, _, he, hmax⟩ :=
    find_mount_success env path fs (copy_of r) h
  rw [hs] at hs1
  cases hs1
  rw [copy_of_inj r r1 he]
  exact hmax

/-- C15. Order independence on well-formed tables: when the records of the
table have pairwise distinct `mnt_dir` and none fails `statvfs` fatally,
`find_mount` gives the same return code and the same entry on every
permutation of the table. -/
theorem find_mount_order_independent (env : Env) (path : CStr) (fs : statvfs_t)
    (rows rows2 : List mntent) (hs : env.setmntent = some rows)
    (hd : (rows.map mntent.mnt_dir).Nodup)
    (hnf : ∀ r ∈ rows, ¬ fatal env r) (hp : rows.Perm rows2) :
    find_mount { env with setmntent := some rows2 } path fs =
      find_mount env path fs := by
  have hs2 : ({ env with setmntent := some rows2 } : Env).setmntent = some rows2 := rfl
  have hnf2 : ∀ r ∈ rows2, ¬ fatal { env with setmntent := some rows2 } r :=
    fun r hr => hnf r (hp.mem_iff.2 hr)
  rcases find_mount_no_fatal env path fs rows hs hnf with ⟨f1, z1⟩ | ⟨r1, m1, s1, l1, f1⟩
  · rcases find_mount_no_fatal _ path fs rows2 hs2 hnf2 with ⟨f2, _⟩ | ⟨r2, m2, s2, l2, _⟩
    · rw [f1, f2]
    · have := z1 r2 (hp.mem_iff.2 m2) s2
      omega
  · rcases find_mount_no_fatal _ path fs rows2 hs2 hnf2 with ⟨_, z2⟩ | ⟨r2, m2, s2, l2, f2⟩
    · have := z2 r1 (hp.mem_iff.1 m1) s1
      omega
    · have x1 := find_mount_result_max env path fs rows r1 hs f1 r2 (hp.mem_iff.2 m2) s2
      have x2 := find_mount_result_max _ path fs rows2 r2 hs2 f2 r1 (hp.mem_iff.1 m1) s1
      have hdir : r1.mnt_dir = r2.mnt_dir :=
        survives_same_len env fs _ r1 r2 s1 s2 (le_antisymm x2 x1)
      have hr : r1 = r2 :=
        List.inj_on_of_nodup_map hd m1 (hp.mem_iff.2 m2) hdir
      rw [f1, f2, hr]

/-- Witness of C15: the tables "/", "/data" and "/data", "/". -/
theorem find_mount_order_independent_witness :
    find_mount { env_local [row_root, row_data] with
        setmntent := some [row_data, row_root] } p_data_x ⟨7⟩ =
      find_mount (env_local [row_root, row_data]) p_data_x ⟨7⟩ :=
  find_mount_order_independent (env_local [row_root, row_data]) p_data_x ⟨7⟩
    [row_root, row_data] [row_data, row_root] rfl (by decide)
    (fun r _ => not_fatal_of_stat_same _ ⟨7⟩ r ⟨⟨7⟩, rfl, rfl⟩)
    (List.Perm.swap row_data row_root [])

/-- A stat-able record of "/" on the path's identity survives the filters
for every path that begins with '/'. -/
theorem root_survives (env : Env) (fs : statvfs_t) (rp : CStr) (r0 : mntent)
    (hrp : ∃ t, rp.val = '/' :: t) (hd : r0.mnt_dir = p_root)
    (hst : stat_same env fs r0) : survives env fs rp r0 := by
  obtain ⟨t, ht⟩ := hrp
  refine ⟨hst, ?_, ?_, Or.inl ?_⟩
  · rw [hd, ht]
    exact ⟨t, rfl⟩
  · rw [hd, ht]
    show 1 ≤ t.length + 1
    omega
  · rw [hd]
    rfl

/-- C16. Root mount always covers: for a canonical path that begins with
'/', on a table without a fatal record that holds a stat-able record of "/"
on the path's identity, `find_mount` succeeds with a surviving record; the
directory of that record is "/" exactly when no surviving record is longer
than "/"; and when the table has a single record of "/", that record is
returned exactly in this case. -/
theorem find_mount_root_covers (env : Env) (path : CStr) (fs : statvfs_t)
    (rows : List mntent) (r0 : mntent) (hs : env.setmntent = some rows)
    (hrp : ∃ t, (env.real_pathdup path).val = '/' :: t)
    (h0 : r0 ∈ rows) (hd : r0.mnt_dir = p_root) (hst : stat_same env fs r0)
    (hnf : ∀ r ∈ rows, ¬ fatal env r) :
    ∃ r ∈ rows, survives env fs (env.real_pathdup path) r ∧
      find_mount env path fs = (0, copy_of r) ∧
      (r.mnt_dir = p_root ↔
        ∀ x ∈ rows, survives env fs (env.real_pathdup path) x →
          strlen x.mnt_dir ≤ strlen p_root) ∧
      ((∀ x ∈ rows, x.mnt_dir = p_root → x = r0) →
        (find_mount env path fs = (0, copy_of r0) ↔
          ∀ x ∈ rows, survives env fs (env.real_pathdup path) x →
            strlen x.mnt_dir ≤ strlen p_root)) := by
  have s0 := root_survives env fs (env.real_pathdup path) r0 hrp hd hst
  have l0 : strlen r0.mnt_dir = 1 := by rw [hd]; rfl
  have lroot : strlen p_root = 1 := rfl
  rcases find_mount_no_fatal env path fs rows hs hnf with ⟨_, z⟩ | ⟨r, m, s, l, f⟩
  · have := z r0 h0 s0
    omega
  · have hmax := find_mount_result_max env path fs rows r hs f
    have hiff : r.mnt_dir = p_root ↔
        ∀ x ∈ rows, survives env fs (env.real_pathdup path) x →
          strlen x.mnt_dir ≤ strlen p_root := by
      constructor
      · intro hr x hx hsx
        have := hmax x hx hsx
        rw [hr] at this
        exact this
      · intro hall
        have h1 := hall r m s
        rw [lroot] at h1
        rw [← hd]
        exact survives_same_len env fs _ r r0 s s0 (by omega)
    refine ⟨r, m, s, f, hiff, ?_⟩
    intro huniq
    rw [← hiff, f]
    constructor
    · intro h
      simp only [Prod.mk.injEq, true_and] at h
      rw [copy_of_inj r r0 h]
      exact hd
    · intro hr
      rw [huniq r m hr]

/-- Witness of C16: the table "/", "/data" and the path "/data/x", for which
"/data" is longer than "/". -/
theorem find_mount_root_covers_witness :
    ∃ r ∈ [row_root, row_data],
      survives (env_local [row_root, row_data]) ⟨7⟩
        ((env_local [row_root, row_data]).real_pathdup p_data_x) r ∧
      find_mount (env_local [row_root, row_data]) p_data_x ⟨7⟩ = (0, copy_of r) ∧
      (r.mnt_dir = p_root ↔
        ∀ x ∈ [row_root, row_data],
          survives (env_local [row_root, row_data]) ⟨7⟩
            ((env_local [row_root, row_data]).real_pathdup p_data_x) x →
          strlen x.mnt_dir ≤ strlen p_root) ∧
      ((∀ x ∈ [row_root, row_data], x.mnt_dir = p_root → x = row_root) →
        (find_mount (env_local [row_root, row_data]) p_data_x ⟨7⟩ =
            (0, copy_of row_root) ↔
          ∀ x ∈ [row_root, row_data],
            survives (env_local [row_root, row_data]) ⟨7⟩
              ((env_local [row_root, row_data]).real_pathdup p_data_x) x →
            strlen x.mnt_dir ≤ strlen p_root)) :=
  find_mount_root_covers (env_local [row_root, row_data]) p_data_x ⟨7⟩
    [row_root, row_data] row_root rfl ⟨"data/x".toList, rfl⟩ (by decide) rfl
    ⟨⟨7⟩, rfl, rfl⟩ (fun r _ => not_fatal_of_stat_same _ ⟨7⟩ r ⟨⟨7⟩, rfl, rfl⟩)

/-! ## The length guard -/

theorem body_unguarded_eq (env : Env) (fs : statvfs_t) (rp : CStr)
    (st : find_state) (ment : mntent) :
    find_mount_body_unguarded env fs rp st ment =
      find_mount_body env fs rp (strlen rp) st ment := by
  cases h : env.statvfs ment.mnt_dir with
  | fail e => simp only [find_mount_body_unguarded, find_mount_body, h]
  | ok m =>
    simp only [find_mount_body_unguarded, find_mount_body, h]
    by_cases c : fs.f_fsid = m.f_fsid ∧
        strncmp ment.mnt_dir rp (strlen ment.mnt_dir) = 0
    · have hle : ¬ strlen ment.mnt_dir > strlen rp := by
        have := ((strncmp_zero_iff ment.mnt_dir rp).1 c.2).length_le
        unfold strlen
        omega
      rw [if_pos c, if_pos c, if_neg hle]
    · rw [if_neg c, if_neg c]

theorem loop_unguarded_eq (env : Env) (fs : statvfs_t) (rp : CStr)
    (rows : List mntent) (st : find_state) :
    find_mount_loop_unguarded env fs rp rows st =
      find_mount_loop env fs rp (strlen rp) rows st := by
  induction rows generalizing st with
  | nil => rfl
  | cons r rest ih =>
    simp only [find_mount_loop_unguarded, find_mount_loop, body_unguarded_eq]
    cases find_mount_body env fs rp (strlen rp) st r with
    | ret s1 => rfl
    | next s1 => exact ih s1

/-- C17. The length guard is redundant: when `strncmp(d, rp, strlen(d))` is 0
then `strlen(d) <= strlen(rp)`, so the branch `if (dlen > plen) continue;`
is never taken where it stands, and `find_mount` without that branch gives
the same result in every environment. -/
theorem length_guard_redundant :
    (∀ d rp : CStr, strncmp d rp (strlen d) = 0 → strlen d ≤ strlen rp) ∧
    (∀ (env : Env) (fs : statvfs_t) (rp : CStr) (ment : mntent) (mntfs : statvfs_t),
      env.statvfs ment.mnt_dir = statvfs_ret.ok mntfs →
      fs.f_fsid = mntfs.f_fsid ∧
        strncmp ment.mnt_dir rp (strlen ment.mnt_dir) = 0 →
      ¬ strlen ment.mnt_dir > strlen rp) ∧
    (∀ (env : Env) (path : CStr) (fs : statvfs_t),
      find_mount_unguarded env path fs = find_mount env path fs) := by
  have h1 : ∀ d rp : CStr, strncmp d rp (strlen d) = 0 → strlen d ≤ strlen rp := by
    intro d rp h
    exact ((strncmp_zero_iff d rp).1 h).length_le
  refine ⟨h1, ?_, ?_⟩
  · intro env fs rp ment mntfs _ hc
    have := h1 ment.mnt_dir rp hc.2
    omega
  · intro env path fs
    unfold find_mount_unguarded find_mount
    cases env.setmntent with
    | none => rfl
    | some rows => simp only [loop_unguarded_eq]

/-- Witness of C17: "/data" against "/data/x", and the table "/", "/data". -/
theorem length_guard_redundant_witness :
    strlen p_data ≤ strlen p_data_x ∧
    find_mount_unguarded (env_local [row_root, row_data]) p_data_x ⟨7⟩ =
      find_mount (env_local [row_root, row_data]) p_data_x ⟨7⟩ :=
  ⟨length_guard_redundant.1 p_data p_data_x (by decide),
    length_guard_redundant.2.2 (env_local [row_root, row_data]) p_data_x ⟨7⟩⟩

end FsmPathUtilsLinux
